import Mathlib

/-!
Shallow embedding of the declarative ELB reconciler implemented by the
`ElbManager` class of `cloud/amazon/ec2_elb_lb.py`.

The reconciler state (`World`) carries the live resource as seen through the
provider client, the `changed` flag, the reported status string, the trace of
mutating provider calls issued so far, and a pending fatal error (`fail_json`).
Each `_set_*` method of the source is embedded as a function
`ElbConfig → World → World`; the provider client is given its documented
semantics (creating listeners appends them, deleting listeners removes the
listeners on the given ports, enabling zones adds them, and so on).  Read-only
provider calls (`get_all_load_balancers`, `get_attributes`) are not traced;
`calls` records mutations only.
-/

/-- ASCII upper-casing, the effect of Python str.upper on the protocol
strings this module handles (character-wise upper-casing). -/
def strUpper (s : String) : String := ⟨s.data.map Char.toUpper⟩

/-- Python str.startswith. -/
def strStartsWith (s pre : String) : Bool := pre.data.isPrefixOf s.data

/-- A desired listener mapping as supplied in the module `listeners`
parameter: required ports and protocol, optional instance protocol and
ssl certificate id (optionality models Python key presence). -/
structure Listener where
  load_balancer_port : Nat
  instance_port : Nat
  protocol : String
  instance_protocol : Option String := none
  ssl_certificate_id : Option String := none
deriving DecidableEq, Repr

/-- Canonical listener tuple in ELB API order.  The Python value is a 4- or
5-element tuple; the first four components are always present and the
optional fifth component (the ssl certificate id) is `none` exactly when the
tuple has 4 elements. -/
structure ListenerTuple where
  lb_port : Nat
  inst_port : Nat
  protocol : String
  instance_protocol : String
  ssl_certificate_id : Option String := none
deriving DecidableEq, Repr

/-- Number of elements of the Python tuple a `ListenerTuple` stands for. -/
def ListenerTuple.size (t : ListenerTuple) : Nat :=
  if t.ssl_certificate_id.isSome then 5 else 4

/-- A live listener as held by the provider API object: the four
complex-tuple fields plus the `ssl_certificate_id` attribute (which can be
absent or the empty string, both falsy in the source). -/
structure ApiListener where
  lb_port : Nat
  inst_port : Nat
  protocol : String
  instance_protocol : String
  ssl_certificate_id : Option String := none
deriving DecidableEq, Repr

/-- Embedding of `ElbManager._api_listener_as_tuple`: the 4-element complex
tuple of a live listener, extended with the ssl certificate id when that
attribute is truthy (present and nonempty). -/
def api_listener_as_tuple (l : ApiListener) : ListenerTuple :=
  { lb_port := l.lb_port,
    inst_port := l.inst_port,
    protocol := l.protocol,
    instance_protocol := l.instance_protocol,
    ssl_certificate_id :=
      match l.ssl_certificate_id with
      | some s => if s = "" then none else some s
      | none => none }

/-- Embedding of `ElbManager._listener_as_tuple`: protocols are upper-cased,
a missing instance protocol defaults to the (upper-cased) load balancer
protocol, and the ssl certificate id is appended as a fifth element exactly
when the key is present. -/
def listener_as_tuple (l : Listener) : ListenerTuple :=
  { lb_port := l.load_balancer_port,
    inst_port := l.instance_port,
    protocol := strUpper l.protocol,
    instance_protocol :=
      match l.instance_protocol with
      | some p => strUpper p
      | none => strUpper l.protocol,
    ssl_certificate_id := l.ssl_certificate_id }

/-- The provider-side listener created from a canonical tuple. -/
def tuple_to_api_listener (t : ListenerTuple) : ApiListener :=
  { lb_port := t.lb_port,
    inst_port := t.inst_port,
    protocol := t.protocol,
    instance_protocol := t.instance_protocol,
    ssl_certificate_id := t.ssl_certificate_id }

/-- The three lists accumulated by `ElbManager._set_elb_listeners`. -/
structure ListenerDiff where
  to_remove : List ListenerTuple
  to_add : List ListenerTuple
  to_keep : List ListenerTuple
deriving DecidableEq, Repr

/-- Scan of the live listeners for one on the given incoming port: the first
match, as in the inner loop of `_set_elb_listeners` (which breaks on the
first listener whose element 0 equals the desired load balancer port). -/
def find_existing_by_port (live : List ApiListener) (port : Nat) : Option ApiListener :=
  live.find? (fun e => e.lb_port == port)

/-- First phase of `_set_elb_listeners`: walk the desired listeners in order,
deciding for each whether to add it, overwrite a same-port live listener
(queue the live tuple for removal and the desired tuple for addition), or
keep the matching live listener. -/
def diff_desired_listeners : List Listener → List ApiListener → ListenerDiff
  | [], _ => ⟨[], [], []⟩
  | d :: ds, live =>
    let rest := diff_desired_listeners ds live
    let t := listener_as_tuple d
    match find_existing_by_port live d.load_balancer_port with
    | some e =>
      let et := api_listener_as_tuple e
      if t ≠ et then
        ⟨et :: rest.to_remove, t :: rest.to_add, rest.to_keep⟩
      else
        ⟨rest.to_remove, rest.to_add, et :: rest.to_keep⟩
    | none => ⟨rest.to_remove, t :: rest.to_add, rest.to_keep⟩

/-- Second phase of `_set_elb_listeners`, run when `purge_listeners` is true:
queue every live listener whose tuple is neither already queued for removal
nor kept.  The removal list is the accumulator, as in the source, so tuples
queued earlier in this same loop are also skipped. -/
def purge_extraneous_listeners :
    List ApiListener → List ListenerTuple → List ListenerTuple → List ListenerTuple
  | [], rem, _ => rem
  | e :: rest, rem, keep =>
    let t := api_listener_as_tuple e
    if t ∈ rem ∨ t ∈ keep then purge_extraneous_listeners rest rem keep
    else purge_extraneous_listeners rest (rem ++ [t]) keep

/-- Embedding of `ElbManager._set_elb_listeners` as a pure diff: the pair of
listener tuples to delete and listener tuples to create, in order. -/
def set_elb_listeners (desired : List Listener) (live : List ApiListener) (purge : Bool) :
    List ListenerTuple × List ListenerTuple :=
  let d := diff_desired_listeners desired live
  let rem := if purge then purge_extraneous_listeners live d.to_remove d.to_keep else d.to_remove
  (rem, d.to_add)

/-- Live (and desired) health check descriptor: the five fields compared by
`_set_health_check`.  A freshly materialized descriptor (`HealthCheck()` for
a resource that has none) has every field unset. -/
structure LiveHealthCheck where
  target : Option String := none
  timeout : Option Int := none
  interval : Option Int := none
  unhealthy_threshold : Option Int := none
  healthy_threshold : Option Int := none
deriving DecidableEq, Repr

/-- A load-balancer-generated cookie stickiness policy on the live
resource. -/
structure LbCookiePolicy where
  policy_name : String
  cookie_expiration_period : Int
deriving DecidableEq, Repr

/-- An application cookie stickiness policy on the live resource. -/
structure AppCookiePolicy where
  policy_name : String
  cookie_name : String
deriving DecidableEq, Repr

/-- The live ELB resource as returned by the provider client. -/
structure Elb where
  availability_zones : List String := []
  security_groups : List String := []
  listeners : List ApiListener := []
  subnets : List String := []
  health_check : Option LiveHealthCheck := none
  connection_draining_timeout : Option Int := none
  cross_zone_enabled : Bool := false
  lb_cookie_stickiness_policies : List LbCookiePolicy := []
  app_cookie_stickiness_policies : List AppCookiePolicy := []
deriving DecidableEq, Repr

/-- Desired health check configuration (module `health_check` parameter). -/
structure HealthCheckConfig where
  ping_protocol : String
  ping_port : Nat
  ping_path : Option String := none
  response_timeout : Int
  interval : Int
  unhealthy_threshold : Int
  healthy_threshold : Int
deriving DecidableEq, Repr

/-- Desired stickiness configuration (module `stickiness` parameter);
`stype` embeds the `type` key, and optional keys model Python key
presence. -/
structure StickinessConfig where
  stype : String
  enabled : Bool
  expiration : Option Int := none
  cookie : Option String := none
deriving DecidableEq, Repr

/-- The desired configuration held by `ElbManager` (creation parameters the
claims do not inspect, such as name and scheme, are omitted); the two
`supports` flags embed `_check_attribute_support` for the two gated
attributes. -/
structure ElbConfig where
  listeners : List Listener := []
  purge_listeners : Bool := true
  zones : List String := []
  purge_zones : Bool := false
  security_group_ids : Option (List String) := none
  health_check : Option HealthCheckConfig := none
  subnets : List String := []
  purge_subnets : Bool := false
  connection_draining_timeout : Option Int := none
  cross_az_load_balancing : Bool := false
  supports_connection_draining : Bool := true
  supports_cross_zone : Bool := true
  stickiness : Option StickinessConfig := none
deriving DecidableEq, Repr

/-- Mutating provider calls the reconciler can issue. -/
inductive ElbCall where
  | createLoadBalancer
  | deleteLoadBalancer
  | deleteListeners (ports : List Nat)
  | createListeners (ls : List ListenerTuple)
  | enableZones (zs : List String)
  | disableZones (zs : List String)
  | attachSubnets (ss : List String)
  | detachSubnets (ss : List String)
  | applySecurityGroups (gs : List String)
  | configureHealthCheck (hc : LiveHealthCheck)
  | modifyConnectionDraining (enabled : Bool) (timeout : Option Int)
  | modifyCrossZone (enabled : Bool)
  | createLbCookiePolicy (pname : String) (expiration : Int)
  | createAppCookiePolicy (pname : String) (cookie : String)
  | deletePolicy (pname : String)
  | setListenerPolicies (port : Nat) (policies : List String)
deriving DecidableEq, Repr

/-- True for the delete-listeners call. -/
def ElbCall.isDeleteListeners : ElbCall → Bool
  | .deleteListeners _ => true
  | _ => false

/-- True for the create-listeners call. -/
def ElbCall.isCreateListeners : ElbCall → Bool
  | .createListeners _ => true
  | _ => false

/-- True for the enable-zones call. -/
def ElbCall.isEnableZones : ElbCall → Bool
  | .enableZones _ => true
  | _ => false

/-- True for the disable-zones call. -/
def ElbCall.isDisableZones : ElbCall → Bool
  | .disableZones _ => true
  | _ => false

/-- True for the attach-subnets call. -/
def ElbCall.isAttachSubnets : ElbCall → Bool
  | .attachSubnets _ => true
  | _ => false

/-- True for the detach-subnets call. -/
def ElbCall.isDetachSubnets : ElbCall → Bool
  | .detachSubnets _ => true
  | _ => false

/-- True for the stickiness-policy mutations: creating or deleting a cookie
stickiness policy and (de)attaching policies to a listener. -/
def ElbCall.isStickinessCall : ElbCall → Bool
  | .createLbCookiePolicy _ _ => true
  | .createAppCookiePolicy _ _ => true
  | .deletePolicy _ => true
  | .setListenerPolicies _ _ => true
  | _ => false

/-- Reconciler state threaded through the sync steps.  The `Changed` field
mirrors the distinct, never-read attribute assigned (by apparent
misspelling, capital C) in `_set_security_groups`; the reported result reads
only `changed`.  `failure` embeds `module.fail_json`: once set, execution
stops (later steps pass the state through unchanged). -/
structure World where
  elb : Option Elb := none
  changed : Bool := false
  Changed : Option Bool := none
  status : String := "gone"
  calls : List ElbCall := []
  failure : Option String := none
deriving DecidableEq, Repr

/-- State after `ElbManager.__init__` and `_get_elb`: changed is false, and
the status is ok when the named resource exists and gone otherwise. -/
def init_world (elb : Option Elb) : World :=
  { elb := elb,
    changed := false,
    Changed := none,
    status := if elb.isSome then "ok" else "gone",
    calls := [],
    failure := none }

/-- Embedding of the Python expression `list(set(a) - set(b))` on string
lists (the result is duplicate-free; its order is immaterial to the
source, which only tests membership and truthiness). -/
def setDiff (a b : List String) : List String :=
  (a.filter (fun x => decide (x ∉ b))).dedup

/-- Python `set(a) == set(b)` on string lists. -/
def sameSet (a b : List String) : Bool :=
  decide ((∀ x ∈ a, x ∈ b) ∧ (∀ x ∈ b, x ∈ a))

/-- Embedding of `ElbManager._set_zones` together with `_enable_zones` and
`_disable_zones` (each issues its provider call and sets changed); the
enable call is issued first, the disable call second. -/
def set_zones (cfg : ElbConfig) (w : World) : World :=
  if w.failure.isSome then w else
  match w.elb with
  | none => w
  | some elb =>
    if cfg.zones = [] then w else
    let zones_to_disable :=
      if cfg.purge_zones then setDiff elb.availability_zones cfg.zones else []
    let zones_to_enable := setDiff cfg.zones elb.availability_zones
    let elb1 :=
      if zones_to_enable = [] then elb
      else { elb with availability_zones := elb.availability_zones ++ zones_to_enable }
    let w1 :=
      if zones_to_enable = [] then w
      else { w with
             elb := some elb1,
             changed := true,
             calls := w.calls ++ [ElbCall.enableZones zones_to_enable] }
    if zones_to_disable = [] then w1
    else
      let elb2 :=
        { elb1 with
          availability_zones :=
            elb1.availability_zones.filter (fun z => decide (z ∉ zones_to_disable)) }
      { w1 with
        elb := some elb2,
        changed := true,
        calls := w1.calls ++ [ElbCall.disableZones zones_to_disable] }

/-- Embedding of `ElbManager._set_subnets` together with `_attach_subnets`
and `_detach_subnets`; the attach call is issued first. -/
def set_subnets (cfg : ElbConfig) (w : World) : World :=
  if w.failure.isSome then w else
  match w.elb with
  | none => w
  | some elb =>
    if cfg.subnets = [] then w else
    let subnets_to_detach :=
      if cfg.purge_subnets then setDiff elb.subnets cfg.subnets else []
    let subnets_to_attach := setDiff cfg.subnets elb.subnets
    let elb1 :=
      if subnets_to_attach = [] then elb
      else { elb with subnets := elb.subnets ++ subnets_to_attach }
    let w1 :=
      if subnets_to_attach = [] then w
      else { w with
             elb := some elb1,
             changed := true,
             calls := w.calls ++ [ElbCall.attachSubnets subnets_to_attach] }
    if subnets_to_detach = [] then w1
    else
      let elb2 :=
        { elb1 with
          subnets := elb1.subnets.filter (fun s => decide (s ∉ subnets_to_detach)) }
      { w1 with
        elb := some elb2,
        changed := true,
        calls := w1.calls ++ [ElbCall.detachSubnets subnets_to_detach] }

/-- Embedding of `ElbManager._set_security_groups`.  The source assigns
`self.Changed` (capital C), a fresh attribute never read elsewhere, so the
reconciler `changed` flag is not touched here. -/
def set_security_groups (cfg : ElbConfig) (w : World) : World :=
  if w.failure.isSome then w else
  match w.elb with
  | none => w
  | some elb =>
    match cfg.security_group_ids with
    | none => w
    | some sgs =>
      if sameSet elb.security_groups sgs then w
      else
        { w with
          elb := some { elb with security_groups := sgs },
          Changed := some true,
          calls := w.calls ++ [ElbCall.applySecurityGroups sgs] }

/-- Embedding of `_set_elb_listeners` as a state step, with the provider
effects of `_delete_elb_listeners` (removes the live listeners on the given
ports, sets changed) and `_create_elb_listeners` (appends the given tuples,
sets changed); the delete call is issued before the create call. -/
def set_elb_listeners_step (cfg : ElbConfig) (w : World) : World :=
  if w.failure.isSome then w else
  match w.elb with
  | none => w
  | some elb =>
    let p := set_elb_listeners cfg.listeners elb.listeners cfg.purge_listeners
    let rem := p.1
    let add := p.2
    let ports := rem.map (fun t => t.lb_port)
    let elb1 :=
      if rem = [] then elb
      else { elb with listeners := elb.listeners.filter (fun l => decide (l.lb_port ∉ ports)) }
    let w1 :=
      if rem = [] then w
      else { w with
             elb := some elb1,
             changed := true,
             calls := w.calls ++ [ElbCall.deleteListeners ports] }
    if add = [] then w1
    else
      let elb2 := { elb1 with listeners := elb1.listeners ++ add.map tuple_to_api_listener }
      { w1 with
        elb := some elb2,
        changed := true,
        calls := w1.calls ++ [ElbCall.createListeners add] }

/-- Provider calls issued by `_set_elb_listeners`, in order: the delete call
(if any tuples are queued for removal) followed by the create call (if any
tuples are queued for addition). -/
def set_elb_listeners_calls (desired : List Listener) (live : List ApiListener)
    (purge : Bool) : List ElbCall :=
  let p := set_elb_listeners desired live purge
  (if p.1 = [] then [] else [ElbCall.deleteListeners (p.1.map (fun t => t.lb_port))]) ++
  (if p.2 = [] then [] else [ElbCall.createListeners p.2])

/-- Embedding of `ElbManager._get_health_check_target`. -/
def get_health_check_target (hc : HealthCheckConfig) : String :=
  let protocol := strUpper hc.ping_protocol
  let path :=
    if protocol = "HTTP" ∨ protocol = "HTTPS" then
      match hc.ping_path with
      | some p => p
      | none => ""
    else ""
  protocol ++ ":" ++ toString hc.ping_port ++ path

/-- The desired health check descriptor built by `_set_health_check`. -/
def desired_health_check (hc : HealthCheckConfig) : LiveHealthCheck :=
  { target := some (get_health_check_target hc),
    timeout := some hc.response_timeout,
    interval := some hc.interval,
    unhealthy_threshold := some hc.unhealthy_threshold,
    healthy_threshold := some hc.healthy_threshold }

/-- The field-by-field comparison loop of `_set_health_check`: true when at
least one of the five descriptor fields differs. -/
def health_check_needs_update (cur des : LiveHealthCheck) : Bool :=
  decide (cur.target ≠ des.target) || decide (cur.timeout ≠ des.timeout) ||
  decide (cur.interval ≠ des.interval) ||
  decide (cur.unhealthy_threshold ≠ des.unhealthy_threshold) ||
  decide (cur.healthy_threshold ≠ des.healthy_threshold)

/-- Embedding of `ElbManager._set_health_check`: when the live resource has
no descriptor an empty one is materialized, every differing field is written
to the live descriptor, and the configure call is issued (and changed set)
exactly when some field differed. -/
def set_health_check (cfg : ElbConfig) (w : World) : World :=
  if w.failure.isSome then w else
  match w.elb with
  | none => w
  | some elb =>
    match cfg.health_check with
    | none => w
    | some hc =>
      let des := desired_health_check hc
      let cur := elb.health_check.getD {}
      if health_check_needs_update cur des then
        { w with
          elb := some { elb with health_check := some des },
          changed := true,
          calls := w.calls ++ [ElbCall.configureHealthCheck des] }
      else
        { w with elb := some { elb with health_check := some cur } }

/-- Embedding of `ElbManager._set_connection_draining_timeout`: a modify
call is issued in both branches and the changed flag is never assigned. -/
def set_connection_draining_timeout (cfg : ElbConfig) (w : World) : World :=
  if w.failure.isSome then w else
  match w.elb with
  | none => w
  | some elb =>
    match cfg.connection_draining_timeout with
    | some t =>
      { w with
        elb := some { elb with connection_draining_timeout := some t },
        calls := w.calls ++ [ElbCall.modifyConnectionDraining true (some t)] }
    | none =>
      { w with
        elb := some { elb with connection_draining_timeout := none },
        calls := w.calls ++ [ElbCall.modifyConnectionDraining false none] }

/-- Embedding of `ElbManager._set_cross_az_load_balancing`: an unconditional
modify call; the changed flag is never assigned. -/
def set_cross_az_load_balancing (cfg : ElbConfig) (w : World) : World :=
  if w.failure.isSome then w else
  match w.elb with
  | none => w
  | some elb =>
    { w with
      elb := some { elb with cross_zone_enabled := cfg.cross_az_load_balancing },
      calls := w.calls ++ [ElbCall.modifyCrossZone cfg.cross_az_load_balancing] }

/-- Embedding of `ElbManager._policy_name`: the module file basename with
underscores replaced by dashes, then a dash and the policy type name. -/
def policy_name (policy_type : String) : String :=
  "ec2-elb-lb.py-" ++ policy_type

/-- The port-to-protocol dictionary built from the live listeners at the
start of `select_stickiness_policy`. -/
def listeners_dict (elb : Elb) : List (Nat × String) :=
  elb.listeners.map (fun l => (l.lb_port, l.protocol))

/-- The calls issued by `_set_listener_policy`: one set-policies call for
every listener of the port-to-protocol dictionary whose protocol starts
with HTTP. -/
def listener_policy_calls (ld : List (Nat × String)) (policy : List String) : List ElbCall :=
  (ld.filter (fun pr => strStartsWith pr.2 "HTTP")).map
    (fun pr => ElbCall.setListenerPolicies pr.1 policy)

/-- Embedding of `_set_listener_policy`: a set-policies call for every
live listener whose protocol starts with HTTP. -/
def set_listener_policy (ld : List (Nat × String)) (policy : List String) (w : World) : World :=
  { w with calls := w.calls ++ listener_policy_calls ld policy }

/-- Embedding of `ElbManager.select_stickiness_policy` together with
`_set_stickiness_policy`, `_create_policy`, `_update_policy` and
`_delete_policy`, with the provider effect of policy creation (append) and
deletion (drop the policy with that name) on the live policy lists. -/
def select_stickiness_policy (cfg : ElbConfig) (w : World) : World :=
  if w.failure.isSome then w else
  match w.elb with
  | none => w
  | some elb =>
    match cfg.stickiness with
    | none => w
    | some st =>
      if st.cookie.isSome ∧ st.expiration.isSome then
        { w with failure := some "cookie and expiration can not be set at the same time" }
      else
      let ld := listeners_dict elb
      if st.stype = "loadbalancer" then
        let pname := policy_name "LBCookieStickinessPolicyType"
        if st.enabled then
          match st.expiration with
          | none => { w with failure := some "expiration must be set when type is loadbalancer" }
          | some expiration =>
            match elb.lb_cookie_stickiness_policies.find? (fun p => p.policy_name == pname) with
            | some p =>
              if p.cookie_expiration_period ≠ expiration then
                let w1 := set_listener_policy ld [] w
                let elb1 :=
                  { elb with
                    lb_cookie_stickiness_policies :=
                      (elb.lb_cookie_stickiness_policies.filter
                        (fun q => decide (q.policy_name ≠ pname))) ++
                      [{ policy_name := pname, cookie_expiration_period := expiration }] }
                let w2 :=
                  { w1 with
                    elb := some elb1,
                    changed := true,
                    calls := w1.calls ++
                               [ElbCall.deletePolicy pname,
                                ElbCall.createLbCookiePolicy pname expiration] }
                set_listener_policy ld [pname] w2
              else
                set_listener_policy ld [pname] w
            | none =>
              let elb1 :=
                { elb with
                  lb_cookie_stickiness_policies :=
                    elb.lb_cookie_stickiness_policies ++
                    [{ policy_name := pname, cookie_expiration_period := expiration }] }
              set_listener_policy ld [pname]
                { w with
                  elb := some elb1,
                  changed := true,
                  calls := w.calls ++ [ElbCall.createLbCookiePolicy pname expiration] }
        else
          let w1 :=
            match elb.lb_cookie_stickiness_policies with
            | [] => { w with changed := false }
            | p :: _ => if p.policy_name = pname then { w with changed := true } else w
          let w2 := set_listener_policy ld [] w1
          let elb2 :=
            { elb with
              lb_cookie_stickiness_policies :=
                elb.lb_cookie_stickiness_policies.filter
                  (fun q => decide (q.policy_name ≠ pname)) }
          { w2 with
            elb := some elb2,
            calls := w2.calls ++ [ElbCall.deletePolicy pname] }
      else if st.stype = "application" then
        let pname := policy_name "AppCookieStickinessPolicyType"
        if st.enabled then
          match st.cookie with
          | none => { w with failure := some "cookie must be set when type is application" }
          | some cookie =>
            match elb.app_cookie_stickiness_policies.find? (fun p => p.policy_name == pname) with
            | some p =>
              if p.cookie_name ≠ cookie then
                let w1 := set_listener_policy ld [] w
                let elb1 :=
                  { elb with
                    app_cookie_stickiness_policies :=
                      (elb.app_cookie_stickiness_policies.filter
                        (fun q => decide (q.policy_name ≠ pname))) ++
                      [{ policy_name := pname, cookie_name := cookie }] }
                let w2 :=
                  { w1 with
                    elb := some elb1,
                    changed := true,
                    calls := w1.calls ++
                               [ElbCall.deletePolicy pname,
                                ElbCall.createAppCookiePolicy pname cookie] }
                set_listener_policy ld [pname] w2
              else
                set_listener_policy ld [pname] w
            | none =>
              let elb1 :=
                { elb with
                  app_cookie_stickiness_policies :=
                    elb.app_cookie_stickiness_policies ++
                    [{ policy_name := pname, cookie_name := cookie }] }
              set_listener_policy ld [pname]
                { w with
                  elb := some elb1,
                  changed := true,
                  calls := w.calls ++ [ElbCall.createAppCookiePolicy pname cookie] }
        else
          let w1 :=
            match elb.app_cookie_stickiness_policies with
            | [] => w
            | p :: _ => if p.policy_name = pname then { w with changed := true } else w
          let w2 := set_listener_policy ld [] w1
          let elb2 :=
            { elb with
              app_cookie_stickiness_policies :=
                elb.app_cookie_stickiness_policies.filter
                  (fun q => decide (q.policy_name ≠ pname)) }
          { w2 with
            elb := some elb2,
            calls := w2.calls ++ [ElbCall.deletePolicy pname] }
      else
        set_listener_policy ld [] w

/-- Embedding of `ElbManager._create_elb` with the provider effect of
`create_load_balancer`: the new resource carries the requested zones,
security groups, canonical listeners and subnets, and no health check,
attributes or policies. -/
def create_elb (cfg : ElbConfig) (w : World) : World :=
  if w.failure.isSome then w else
  { w with
    elb := some
      { availability_zones := cfg.zones,
        security_groups := cfg.security_group_ids.getD [],
        listeners := cfg.listeners.map (fun l => tuple_to_api_listener (listener_as_tuple l)),
        subnets := cfg.subnets,
        health_check := none,
        connection_draining_timeout := none,
        cross_zone_enabled := false,
        lb_cookie_stickiness_policies := [],
        app_cookie_stickiness_policies := [] },
    changed := true,
    status := "created",
    calls := w.calls ++ [ElbCall.createLoadBalancer] }

/-- Embedding of `ElbManager.ensure_ok`: create the resource when absent,
otherwise sync zones, security groups, listeners and subnets; then sync the
health check, the two attribute kinds when supported, and the stickiness
policy. -/
def ensure_ok (cfg : ElbConfig) (w : World) : World :=
  let wa :=
    match w.elb with
    | none => create_elb cfg w
    | some _ =>
      set_subnets cfg (set_elb_listeners_step cfg (set_security_groups cfg (set_zones cfg w)))
  let wb := set_health_check cfg wa
  let wc :=
    if cfg.supports_connection_draining then set_connection_draining_timeout cfg wb else wb
  let wd := if cfg.supports_cross_zone then set_cross_az_load_balancing cfg wc else wc
  select_stickiness_policy cfg wd

/-- Embedding of `ElbManager.ensure_gone` and `_delete_elb`: delete the
resource when present (changed true, status deleted), no-op otherwise. -/
def ensure_gone (w : World) : World :=
  match w.elb with
  | none => w
  | some _ =>
    { w with
      elb := none,
      changed := true,
      status := "deleted",
      calls := w.calls ++ [ElbCall.deleteLoadBalancer] }

/-- Pairwise-distinct incoming ports: the live-resource invariant that at
most one listener exists per load balancer port. -/
def UniquePorts (live : List ApiListener) : Prop :=
  live.Pairwise (fun a b => a.lb_port ≠ b.lb_port)

/-- A tuple is kept by the listener diff: some desired listener normalizes
to it and some live listener canonicalizes to it. -/
def is_kept (desired : List Listener) (live : List ApiListener) (t : ListenerTuple) : Prop :=
  (∃ d ∈ desired, listener_as_tuple d = t) ∧ (∃ e ∈ live, api_listener_as_tuple e = t)

/-- A tuple is the differing same-port partner of a desired listener: it is
the canonical tuple of a live listener sharing a desired listener's port
while that desired listener normalizes to a different tuple. -/
def is_diff_partner (desired : List Listener) (live : List ApiListener)
    (t : ListenerTuple) : Prop :=
  ∃ e ∈ live, api_listener_as_tuple e = t ∧
    ∃ d ∈ desired, d.load_balancer_port = e.lb_port ∧ listener_as_tuple d ≠ t

/-- The zone list of the live resource matches the desired configuration:
every desired zone is enabled and, when purging, no other zone is. -/
def zones_converged (cfg : ElbConfig) (zones : List String) : Prop :=
  cfg.zones ≠ [] →
    (∀ z ∈ cfg.zones, z ∈ zones) ∧
    (cfg.purge_zones = true → ∀ z ∈ zones, z ∈ cfg.zones)

/-- The subnet list of the live resource matches the desired
configuration. -/
def subnets_converged (cfg : ElbConfig) (subs : List String) : Prop :=
  cfg.subnets ≠ [] →
    (∀ s ∈ cfg.subnets, s ∈ subs) ∧
    (cfg.purge_subnets = true → ∀ s ∈ subs, s ∈ cfg.subnets)

/-- The live security groups agree, as a set, with the supplied ones. -/
def sgs_converged (cfg : ElbConfig) (groups : List String) : Prop :=
  ∀ sgs, cfg.security_group_ids = some sgs → sameSet groups sgs = true

/-- The live listeners match the desired ones: every desired listener has a
live listener with the same canonical tuple, under purging every live
listener is desired, and ports are unique. -/
def listeners_converged (cfg : ElbConfig) (ls : List ApiListener) : Prop :=
  (∀ d ∈ cfg.listeners, ∃ e ∈ ls, api_listener_as_tuple e = listener_as_tuple d) ∧
  (cfg.purge_listeners = true →
    ∀ e ∈ ls, ∃ d ∈ cfg.listeners, api_listener_as_tuple e = listener_as_tuple d) ∧
  UniquePorts ls

/-- The live health check descriptor equals the desired one, when a health
check is configured. -/
def hc_converged (cfg : ElbConfig) (h : Option LiveHealthCheck) : Prop :=
  ∀ hc, cfg.health_check = some hc → h = some (desired_health_check hc)

/-- The live stickiness policies match the desired configuration: for an
enabled configuration the deterministically named policy exists with the
desired parameter, and for a disabled one no policy bears that name. -/
def stickiness_converged (cfg : ElbConfig) (lbp : List LbCookiePolicy)
    (app : List AppCookiePolicy) : Prop :=
  ∀ st, cfg.stickiness = some st →
    (st.stype = "loadbalancer" →
      (st.enabled = true → ∀ exp, st.expiration = some exp →
        ∃ p, lbp.find?
            (fun q => q.policy_name == policy_name "LBCookieStickinessPolicyType") = some p ∧
          p.cookie_expiration_period = exp) ∧
      (st.enabled = false →
        ∀ p ∈ lbp, p.policy_name ≠ policy_name "LBCookieStickinessPolicyType")) ∧
    (st.stype = "application" →
      (st.enabled = true → ∀ ck, st.cookie = some ck →
        ∃ p, app.find?
            (fun q => q.policy_name == policy_name "AppCookieStickinessPolicyType") = some p ∧
          p.cookie_name = ck) ∧
      (st.enabled = false →
        ∀ p ∈ app, p.policy_name ≠ policy_name "AppCookieStickinessPolicyType"))

/-- The live resource carries no delta against the desired configuration:
re-running every sync step detects nothing to change. -/
def converged (cfg : ElbConfig) (elb : Elb) : Prop :=
  zones_converged cfg elb.availability_zones ∧
  sgs_converged cfg elb.security_groups ∧
  listeners_converged cfg elb.listeners ∧
  subnets_converged cfg elb.subnets ∧
  hc_converged cfg elb.health_check ∧
  stickiness_converged cfg elb.lb_cookie_stickiness_policies
    elb.app_cookie_stickiness_policies

/-- Sample desired listeners exercising the keep, overwrite and add cases. -/
def sampleDesired : List Listener :=
  [{ load_balancer_port := 80, instance_port := 8080, protocol := "http" },
   { load_balancer_port := 443, instance_port := 443, protocol := "https",
     instance_protocol := some "http", ssl_certificate_id := some "cert-1" },
   { load_balancer_port := 25, instance_port := 25, protocol := "tcp" }]

/-- Sample live listeners: a match for port 80, a differing listener on
port 443, and an extraneous listener on port 9000. -/
def sampleLive : List ApiListener :=
  [{ lb_port := 80, inst_port := 8080, protocol := "HTTP", instance_protocol := "HTTP" },
   { lb_port := 443, inst_port := 443, protocol := "HTTPS", instance_protocol := "HTTPS" },
   { lb_port := 9000, inst_port := 9000, protocol := "TCP", instance_protocol := "TCP" }]

/-- Configuration fixture with purge flags off and a zone delta. -/
def cfgZones : ElbConfig :=
  { zones := ["us-east-1a", "us-east-1b"], purge_zones := false,
    subnets := ["subnet-1"], purge_subnets := false }

/-- Live fixture with one shared and one extraneous zone. -/
def elbZones : Elb :=
  { availability_zones := ["us-east-1b", "us-east-1c"], subnets := ["subnet-9"] }

/-- Configuration fixture asking for the attribute values the live resource
already carries. -/
def cfgAttrs : ElbConfig :=
  { connection_draining_timeout := some 60, cross_az_load_balancing := true }

/-- Live fixture whose attributes already match `cfgAttrs`. -/
def elbAttrs : Elb :=
  { connection_draining_timeout := some 60, cross_zone_enabled := true }

/-- Configuration fixture whose only delta is a security group change. -/
def cfgSg : ElbConfig := { security_group_ids := some ["sg-2"] }

/-- Live fixture carrying a different security group. -/
def elbSg : Elb := { security_groups := ["sg-1"] }

/-- Disabled loadbalancer stickiness configuration. -/
def cfgStickOff : ElbConfig :=
  { stickiness := some { stype := "loadbalancer", enabled := false } }

/-- Live fixture with an HTTP listener and no stickiness policies. -/
def elbStickOff : Elb :=
  { listeners := [{ lb_port := 80, inst_port := 80, protocol := "HTTP",
                    instance_protocol := "HTTP" }] }

/-- A reconciler state whose earlier sync steps already set changed. -/
def wStickOff : World :=
  { elb := some elbStickOff, changed := true, Changed := none, status := "ok",
    calls := [], failure := none }

/-- Configuration supplying both stickiness cookie and expiration, plus a
zone delta that the reconciler applies before validating stickiness. -/
def cfgBothKeys : ElbConfig :=
  { zones := ["us-east-1a"],
    supports_connection_draining := false, supports_cross_zone := false,
    stickiness := some { stype := "loadbalancer", enabled := true,
                         expiration := some 300, cookie := some "SESSION" } }

/-- Live fixture with no zones enabled. -/
def elbBothKeys : Elb := { availability_zones := [] }

/-- Health check parameter fixture. -/
def hcFix : HealthCheckConfig :=
  { ping_protocol := "http", ping_port := 80, ping_path := some "/index.html",
    response_timeout := 5, interval := 30, unhealthy_threshold := 2,
    healthy_threshold := 10 }

/-- Health check configuration fixture. -/
def cfgHealth : ElbConfig := { health_check := some hcFix }

/-- Live fixture with a descriptor differing from `cfgHealth` in one
field. -/
def elbHealth : Elb :=
  { health_check := some { target := some "HTTP:80/index.html",
                           timeout := some 5,
                           interval := some 60,
                           unhealthy_threshold := some 2,
                           healthy_threshold := some 10 } }

/-- Full configuration fixture used to exercise two consecutive runs. -/
def cfgTwoRuns : ElbConfig :=
  { listeners := [{ load_balancer_port := 80, instance_port := 8080, protocol := "http" },
                  { load_balancer_port := 443, instance_port := 443, protocol := "https",
                    ssl_certificate_id := some "cert-1" }],
    purge_listeners := true,
    zones := ["us-east-1a", "us-east-1d"], purge_zones := true,
    security_group_ids := some ["sg-5"],
    health_check := some { ping_protocol := "http",
                           ping_port := 8080,
                           ping_path := some "/",
                           response_timeout := 5,
                           interval := 30,
                           unhealthy_threshold := 2,
                           healthy_threshold := 10 },
    connection_draining_timeout := some 60, cross_az_load_balancing := true,
    stickiness := some { stype := "loadbalancer", enabled := true, expiration := some 300 } }

/-- Live fixture differing from `cfgTwoRuns` in every synced aspect. -/
def elbTwoRuns : Elb :=
  { availability_zones := ["us-east-1a", "us-east-1c"],
    security_groups := ["sg-1"],
    listeners := [{ lb_port := 80, inst_port := 80, protocol := "HTTP",
                    instance_protocol := "HTTP" },
                  { lb_port := 9000, inst_port := 9000, protocol := "TCP",
                    instance_protocol := "TCP" }],
    subnets := [],
    health_check := none,
    lb_cookie_stickiness_policies := [{ policy_name := "other", cookie_expiration_period := 60 }] }

/-- Configuration whose first run performs a zone delta but whose disabled
loadbalancer stickiness step later resets the changed flag. -/
def cfgResetChanged : ElbConfig :=
  { listeners := [{ load_balancer_port := 80, instance_port := 80, protocol := "http" }],
    zones := ["us-east-1a"],
    supports_connection_draining := false, supports_cross_zone := false,
    stickiness := some { stype := "loadbalancer", enabled := false } }

/-- Live fixture for `cfgResetChanged`: the zone is missing, the listener
matches, and no stickiness policies exist. -/
def elbResetChanged : Elb :=
  { availability_zones := [],
    listeners := [{ lb_port := 80, inst_port := 80, protocol := "HTTP",
                    instance_protocol := "HTTP" }] }

/-- The canonical tuple of a desired listener keeps its incoming port. -/
theorem listener_as_tuple_lb_port (d : Listener) :
    (listener_as_tuple d).lb_port = d.load_balancer_port := rfl

/-- The canonical tuple of a live listener keeps its incoming port. -/
theorem api_listener_as_tuple_lb_port (e : ApiListener) :
    (api_listener_as_tuple e).lb_port = e.lb_port := rfl

/-- A found listener is a live listener on the requested port. -/
theorem find_existing_mem {live : List ApiListener} {port : Nat} {e : ApiListener}
    (h : find_existing_by_port live port = some e) : e ∈ live ∧ e.lb_port = port := by
  refine ⟨List.mem_of_find?_eq_some h, ?_⟩
  simpa using List.find?_some h

/-- Under the one-listener-per-port invariant, the port scan finds exactly
the live listener carrying that port. -/
theorem find_existing_unique {live : List ApiListener} (h : UniquePorts live)
    {e : ApiListener} (he : e ∈ live) {port : Nat} (hp : e.lb_port = port) :
    find_existing_by_port live port = some e := by
  induction live with
  | nil => cases he
  | cons a rest ih =>
    rcases List.mem_cons.mp he with rfl | hm
    · simp [find_existing_by_port, List.find?_cons_of_pos, hp]
    · have hne : a.lb_port ≠ e.lb_port := (List.pairwise_cons.mp h).1 e hm
      have hfalse : (a.lb_port == port) = false := by
        simp only [beq_eq_false_iff_ne, ne_eq]
        exact fun hc => hne (hp ▸ hc)
      have := ih (List.pairwise_cons.mp h).2 hm
      simpa [find_existing_by_port, List.find?_cons_of_neg, hfalse] using this

/-- Membership in the addition list of the first diff phase: a tuple is
queued for addition exactly when some desired listener normalizes to it and
the port scan either finds nothing or finds a live listener whose canonical
tuple differs. -/
theorem diff_to_add_mem (ds : List Listener) (live : List ApiListener) (t : ListenerTuple) :
    t ∈ (diff_desired_listeners ds live).to_add ↔
      ∃ d ∈ ds, listener_as_tuple d = t ∧
        ∀ e, find_existing_by_port live d.load_balancer_port = some e →
          api_listener_as_tuple e ≠ listener_as_tuple d := by
  induction ds with
  | nil => simp [diff_desired_listeners]
  | cons d ds ih =>
    cases hf : find_existing_by_port live d.load_balancer_port with
    | none =>
      simp only [diff_desired_listeners, hf, List.mem_cons]
      constructor
      · rintro (rfl | h)
        · exact ⟨d, Or.inl rfl, rfl, fun e he => by simp [hf] at he⟩
        · obtain ⟨d', hd', h1, h2⟩ := ih.mp h
          exact ⟨d', Or.inr hd', h1, h2⟩
      · rintro ⟨d', hd', h1, h2⟩
        rcases hd' with rfl | hd'
        · exact Or.inl h1.symm
        · exact Or.inr (ih.mpr ⟨d', hd', h1, h2⟩)
    | some e =>
      by_cases hne : listener_as_tuple d = api_listener_as_tuple e
      · have hcond : ¬ (listener_as_tuple d ≠ api_listener_as_tuple e) := by simpa using hne
        simp only [diff_desired_listeners, hf, if_neg hcond, List.mem_cons]
        constructor
        · intro h
          obtain ⟨d', hd', h1, h2⟩ := ih.mp h
          exact ⟨d', Or.inr hd', h1, h2⟩
        · rintro ⟨d', hd', h1, h2⟩
          rcases hd' with rfl | hd'
          · exact absurd hne.symm (h2 e hf)
          · exact ih.mpr ⟨d', hd', h1, h2⟩
      · simp only [diff_desired_listeners, hf, if_pos hne, List.mem_cons]
        constructor
        · rintro (rfl | h)
          · refine ⟨d, Or.inl rfl, rfl, fun e' he' => ?_⟩
            rw [hf] at he'
            cases he'
            exact fun hc => hne hc.symm
          · obtain ⟨d', hd', h1, h2⟩ := ih.mp h
            exact ⟨d', Or.inr hd', h1, h2⟩
        · rintro ⟨d', hd', h1, h2⟩
          rcases hd' with rfl | hd'
          · exact Or.inl h1.symm
          · exact Or.inr (ih.mpr ⟨d', hd', h1, h2⟩)

/-- Membership in the removal list of the first diff phase: a tuple is
queued for overwrite-removal exactly when it is the canonical tuple found on
some desired listener's port while that desired listener normalizes to a
different tuple. -/
theorem diff_to_remove_mem (ds : List Listener) (live : List ApiListener) (t : ListenerTuple) :
    t ∈ (diff_desired_listeners ds live).to_remove ↔
      ∃ d ∈ ds, ∃ e, find_existing_by_port live d.load_balancer_port = some e ∧
        api_listener_as_tuple e = t ∧ listener_as_tuple d ≠ t := by
  induction ds with
  | nil => simp [diff_desired_listeners]
  | cons d ds ih =>
    cases hf : find_existing_by_port live d.load_balancer_port with
    | none =>
      simp only [diff_desired_listeners, hf, List.mem_cons]
      constructor
      · intro h
        obtain ⟨d', hd', h1⟩ := ih.mp h
        exact ⟨d', Or.inr hd', h1⟩
      · rintro ⟨d', hd', e', he', h1, h2⟩
        rcases hd' with rfl | hd'
        · rw [hf] at he'; cases he'
        · exact ih.mpr ⟨d', hd', e', he', h1, h2⟩
    | some e =>
      by_cases hne : listener_as_tuple d = api_listener_as_tuple e
      · have hcond : ¬ (listener_as_tuple d ≠ api_listener_as_tuple e) := by simpa using hne
        simp only [diff_desired_listeners, hf, if_neg hcond, List.mem_cons]
        constructor
        · intro h
          obtain ⟨d', hd', h1⟩ := ih.mp h
          exact ⟨d', Or.inr hd', h1⟩
        · rintro ⟨d', hd', e', he', h1, h2⟩
          rcases hd' with rfl | hd'
          · rw [hf] at he'; cases he'
            exact absurd (h1 ▸ hne) h2
          · exact ih.mpr ⟨d', hd', e', he', h1, h2⟩
      · simp only [diff_desired_listeners, hf, if_pos hne, List.mem_cons]
        constructor
        · rintro (rfl | h)
          · exact ⟨d, Or.inl rfl, e, hf, rfl, hne⟩
          · obtain ⟨d', hd', h1⟩ := ih.mp h
            exact ⟨d', Or.inr hd', h1⟩
        · rintro ⟨d', hd', e', he', h1, h2⟩
          rcases hd' with rfl | hd'
          · rw [hf] at he'; cases he'
            exact Or.inl h1.symm
          · exact Or.inr (ih.mpr ⟨d', hd', e', he', h1, h2⟩)

/-- Membership in the keep list of the first diff phase: a tuple is kept
exactly when some desired listener normalizes to it and the scan of that
listener's port finds a live listener with the same canonical tuple. -/
theorem diff_to_keep_mem (ds : List Listener) (live : List ApiListener) (t : ListenerTuple) :
    t ∈ (diff_desired_listeners ds live).to_keep ↔
      ∃ d ∈ ds, ∃ e, find_existing_by_port live d.load_balancer_port = some e ∧
        api_listener_as_tuple e = t ∧ listener_as_tuple d = t := by
  induction ds with
  | nil => simp [diff_desired_listeners]
  | cons d ds ih =>
    cases hf : find_existing_by_port live d.load_balancer_port with
    | none =>
      simp only [diff_desired_listeners, hf, List.mem_cons]
      constructor
      · intro h
        obtain ⟨d', hd', h1⟩ := ih.mp h
        exact ⟨d', Or.inr hd', h1⟩
      · rintro ⟨d', hd', e', he', h1, h2⟩
        rcases hd' with rfl | hd'
        · rw [hf] at he'; cases he'
        · exact ih.mpr ⟨d', hd', e', he', h1, h2⟩
    | some e =>
      by_cases hne : listener_as_tuple d = api_listener_as_tuple e
      · have hcond : ¬ (listener_as_tuple d ≠ api_listener_as_tuple e) := by simpa using hne
        simp only [diff_desired_listeners, hf, if_neg hcond, List.mem_cons]
        constructor
        · rintro (rfl | h)
          · exact ⟨d, Or.inl rfl, e, hf, rfl, hne⟩
          · obtain ⟨d', hd', h1⟩ := ih.mp h
            exact ⟨d', Or.inr hd', h1⟩
        · rintro ⟨d', hd', e', he', h1, h2⟩
          rcases hd' with rfl | hd'
          · rw [hf] at he'; cases he'
            exact Or.inl h1.symm
          · exact Or.inr (ih.mpr ⟨d', hd', e', he', h1, h2⟩)
      · simp only [diff_desired_listeners, hf, if_pos hne, List.mem_cons]
        constructor
        · intro h
          obtain ⟨d', hd', h1⟩ := ih.mp h
          exact ⟨d', Or.inr hd', h1⟩
        · rintro ⟨d', hd', e', he', h1, h2⟩
          rcases hd' with rfl | hd'
          · rw [hf] at he'; cases he'
            exact absurd (h2.trans h1.symm) hne
          · exact ih.mpr ⟨d', hd', e', he', h1, h2⟩

/-- Membership after the purge phase: a tuple ends up queued for removal
exactly when it was already queued, or it is the canonical tuple of some
live listener and is not kept. -/
theorem purge_extraneous_mem (live : List ApiListener) (rem keep : List ListenerTuple)
    (t : ListenerTuple) :
    t ∈ purge_extraneous_listeners live rem keep ↔
      t ∈ rem ∨ ((∃ e ∈ live, api_listener_as_tuple e = t) ∧ t ∉ keep) := by
  induction live generalizing rem with
  | nil => simp [purge_extraneous_listeners]
  | cons e rest ih =>
    by_cases hc : api_listener_as_tuple e ∈ rem ∨ api_listener_as_tuple e ∈ keep
    · rw [show purge_extraneous_listeners (e :: rest) rem keep =
          purge_extraneous_listeners rest rem keep by
        simp [purge_extraneous_listeners, if_pos hc]]
      rw [ih]
      simp only [List.mem_cons]
      constructor
      · rintro (h | ⟨⟨e', he', h1⟩, h2⟩)
        · exact Or.inl h
        · exact Or.inr ⟨⟨e', Or.inr he', h1⟩, h2⟩
      · rintro (h | ⟨⟨e', he', h1⟩, h2⟩)
        · exact Or.inl h
        · rcases he' with rfl | he'
          · rcases hc with hc | hc
            · exact Or.inl (h1 ▸ hc)
            · exact absurd (h1 ▸ hc) h2
          · exact Or.inr ⟨⟨e', he', h1⟩, h2⟩
    · rw [show purge_extraneous_listeners (e :: rest) rem keep =
          purge_extraneous_listeners rest (rem ++ [api_listener_as_tuple e]) keep by
        simp [purge_extraneous_listeners, if_neg hc]]
      rw [ih]
      push_neg at hc
      simp only [List.mem_append, List.mem_cons, List.not_mem_nil, or_false]
      constructor
      · rintro ((h | h) | ⟨⟨e', he', h1⟩, h2⟩)
        · exact Or.inl h
        · exact Or.inr ⟨⟨e, Or.inl rfl, h.symm⟩, h ▸ hc.2⟩
        · exact Or.inr ⟨⟨e', Or.inr he', h1⟩, h2⟩
      · rintro (h | ⟨⟨e', he', h1⟩, h2⟩)
        · exact Or.inl (Or.inl h)
        · rcases he' with rfl | he'
          · exact Or.inl (Or.inr h1.symm)
          · exact Or.inr ⟨⟨e', he', h1⟩, h2⟩

/-- Every queued addition is the canonical tuple of some desired listener. -/
theorem diff_to_add_tuple {ds : List Listener} {live : List ApiListener} {t : ListenerTuple}
    (h : t ∈ (diff_desired_listeners ds live).to_add) :
    ∃ d ∈ ds, listener_as_tuple d = t := by
  obtain ⟨d, hd, h1, _⟩ := (diff_to_add_mem ds live t).mp h
  exact ⟨d, hd, h1⟩

/-- Under the port invariant a desired listener is queued for addition
exactly when every live listener on its port (of which there is at most one)
canonicalizes to a different tuple. -/
theorem diff_to_add_iff_unique {ds : List Listener} {live : List ApiListener}
    (hU : UniquePorts live) {d : Listener} (hd : d ∈ ds) :
    listener_as_tuple d ∈ (diff_desired_listeners ds live).to_add ↔
      ∀ e ∈ live, e.lb_port = d.load_balancer_port →
        api_listener_as_tuple e ≠ listener_as_tuple d := by
  rw [diff_to_add_mem]
  constructor
  · rintro ⟨d', hd', h1, h2⟩ e he hport
    have hpp : d'.load_balancer_port = d.load_balancer_port := by
      have := congrArg ListenerTuple.lb_port h1
      simpa [listener_as_tuple_lb_port] using this
    have hfind : find_existing_by_port live d'.load_balancer_port = some e :=
      find_existing_unique hU he (by rw [hport, hpp])
    intro hc
    exact h2 e hfind (by rw [h1, hc])
  · intro h
    refine ⟨d, hd, rfl, fun e hfind => ?_⟩
    obtain ⟨he, hport⟩ := find_existing_mem hfind
    exact h e he hport

/-- Under the port invariant the overwrite-removal list is exactly the set
of differing same-port partners. -/
theorem diff_to_remove_iff_partner {ds : List Listener} {live : List ApiListener}
    (hU : UniquePorts live) (t : ListenerTuple) :
    t ∈ (diff_desired_listeners ds live).to_remove ↔ is_diff_partner ds live t := by
  rw [diff_to_remove_mem, is_diff_partner]
  constructor
  · rintro ⟨d, hd, e, hfind, h1, h2⟩
    obtain ⟨he, hport⟩ := find_existing_mem hfind
    exact ⟨e, he, h1, d, hd, hport.symm, h2⟩
  · rintro ⟨e, he, h1, d, hd, hport, h2⟩
    exact ⟨d, hd, e, find_existing_unique hU he hport.symm, h1, h2⟩

/-- Under the port invariant the keep list is exactly the set of tuples
both desired and live. -/
theorem diff_to_keep_iff_kept {ds : List Listener} {live : List ApiListener}
    (hU : UniquePorts live) (t : ListenerTuple) :
    t ∈ (diff_desired_listeners ds live).to_keep ↔ is_kept ds live t := by
  rw [diff_to_keep_mem, is_kept]
  constructor
  · rintro ⟨d, hd, e, hfind, h1, h2⟩
    exact ⟨⟨d, hd, h2⟩, ⟨e, (find_existing_mem hfind).1, h1⟩⟩
  · rintro ⟨⟨d, hd, h1⟩, ⟨e, he, h2⟩⟩
    have hport : e.lb_port = d.load_balancer_port := by
      have h3 := congrArg ListenerTuple.lb_port h2
      have h4 := congrArg ListenerTuple.lb_port h1
      simp only [api_listener_as_tuple_lb_port] at h3
      simp only [listener_as_tuple_lb_port] at h4
      rw [h3, h4]
    exact ⟨d, hd, e, find_existing_unique hU he hport, h2, h1⟩

/-- C1.  For every desired and live listener list (the live list satisfying
the one-listener-per-port invariant) and any purge flag,
`_set_elb_listeners` computes exactly the diff implied by per-port tuple
equality, independently of input order: every queued addition is the
canonical tuple of a desired listener; a desired listener is added iff no
same-port live listener exists or the (unique) same-port live listener
canonicalizes to a different tuple; a live tuple is removed iff it is the
differing same-port partner of a desired listener or the purge flag is set
and it is the canonical tuple of a live listener that is not kept; and the
issued calls are a block of removals followed by a block of additions. -/
theorem sync_listeners_diff_correct (desired : List Listener) (live : List ApiListener)
    (purge : Bool) (hU : UniquePorts live) :
    (∀ t ∈ (set_elb_listeners desired live purge).2, ∃ d ∈ desired, listener_as_tuple d = t) ∧
    (∀ d ∈ desired,
      (listener_as_tuple d ∈ (set_elb_listeners desired live purge).2 ↔
        ∀ e ∈ live, e.lb_port = d.load_balancer_port →
          api_listener_as_tuple e ≠ listener_as_tuple d)) ∧
    (∀ t, t ∈ (set_elb_listeners desired live purge).1 ↔
      (is_diff_partner desired live t ∨
        (purge = true ∧ (∃ e ∈ live, api_listener_as_tuple e = t) ∧
          ¬ is_kept desired live t))) ∧
    (∃ dels adds, set_elb_listeners_calls desired live purge = dels ++ adds ∧
      (∀ c ∈ dels, c.isDeleteListeners = true) ∧ (∀ c ∈ adds, c.isCreateListeners = true)) := by
  refine ⟨?_, ?_, ?_, ?_⟩
  · intro t ht
    exact diff_to_add_tuple (by simpa [set_elb_listeners] using ht)
  · intro d hd
    have h := @diff_to_add_iff_unique desired live hU d hd
    simpa [set_elb_listeners] using h
  · intro t
    cases purge with
    | false =>
      simp only [set_elb_listeners, if_neg (by simp : ¬ (false = true))]
      rw [diff_to_remove_iff_partner hU]
      simp
    | true =>
      simp only [set_elb_listeners]
      rw [if_pos trivial, purge_extraneous_mem, diff_to_remove_iff_partner hU]
      constructor
      · rintro (h | ⟨h1, h2⟩)
        · exact Or.inl h
        · exact Or.inr ⟨trivial, h1, fun hk => h2 ((diff_to_keep_iff_kept hU t).mpr hk)⟩
      · rintro (h | ⟨_, h1, h2⟩)
        · exact Or.inl h
        · exact Or.inr ⟨h1, fun hk => h2 ((diff_to_keep_iff_kept hU t).mp hk)⟩
  · simp only [set_elb_listeners_calls]
    refine ⟨_, _, rfl, ?_, ?_⟩
    · intro c hc
      by_cases h : (set_elb_listeners desired live purge).1 = [] <;>
        simp only [h, if_pos, if_neg, ite_true, ite_false] at hc <;>
        first
          | exact absurd hc (List.not_mem_nil c)
          | (simp only [List.mem_singleton] at hc; simp [hc, ElbCall.isDeleteListeners])
    · intro c hc
      by_cases h : (set_elb_listeners desired live purge).2 = [] <;>
        simp only [h, if_pos, if_neg, ite_true, ite_false] at hc <;>
        first
          | exact absurd hc (List.not_mem_nil c)
          | (simp only [List.mem_singleton] at hc; simp [hc, ElbCall.isCreateListeners])

/-- Closed witness for `sync_listeners_diff_correct`: the port invariant
holds of the sample live listeners, and the theorem applies to them. -/
theorem sync_listeners_diff_correct_witness :
    UniquePorts sampleLive ∧
    (∀ d ∈ sampleDesired,
      (listener_as_tuple d ∈ (set_elb_listeners sampleDesired sampleLive true).2 ↔
        ∀ e ∈ sampleLive, e.lb_port = d.load_balancer_port →
          api_listener_as_tuple e ≠ listener_as_tuple d)) :=
  ⟨by unfold UniquePorts; decide,
   (sync_listeners_diff_correct sampleDesired sampleLive true
     (by unfold UniquePorts; decide)).2.1⟩

/-- Membership in the embedded set difference. -/
theorem mem_setDiff {a b : List String} {x : String} :
    x ∈ setDiff a b ↔ x ∈ a ∧ x ∉ b := by
  simp [setDiff, List.mem_dedup, List.mem_filter]

/-- C6.  For every desired and live zone list (and likewise for subnets):
the computed enable set (desired minus live) and disable set (live minus
desired, taken only under the purge flag) are disjoint; with the purge flag
off the corresponding sync step never issues a disable (detach) call; and
the calls issued by the step are a block of enables (attaches) followed by a
block of disables (detaches). -/
theorem zone_subnet_diff_correct (cfg : ElbConfig) (elb : Elb) :
    (∀ z ∈ setDiff cfg.zones elb.availability_zones,
      z ∉ setDiff elb.availability_zones cfg.zones) ∧
    (∀ s ∈ setDiff cfg.subnets elb.subnets, s ∉ setDiff elb.subnets cfg.subnets) ∧
    (cfg.purge_zones = false →
      ∀ c ∈ (set_zones cfg (init_world (some elb))).calls, c.isDisableZones = false) ∧
    (cfg.purge_subnets = false →
      ∀ c ∈ (set_subnets cfg (init_world (some elb))).calls, c.isDetachSubnets = false) ∧
    (∃ enables disables, (set_zones cfg (init_world (some elb))).calls = enables ++ disables ∧
      (∀ c ∈ enables, c.isEnableZones = true) ∧ (∀ c ∈ disables, c.isDisableZones = true)) ∧
    (∃ attaches detaches,
      (set_subnets cfg (init_world (some elb))).calls = attaches ++ detaches ∧
      (∀ c ∈ attaches, c.isAttachSubnets = true) ∧
      (∀ c ∈ detaches, c.isDetachSubnets = true)) := by
  have hdz : ∀ z ∈ setDiff cfg.zones elb.availability_zones,
      z ∉ setDiff elb.availability_zones cfg.zones := by
    intro z hz hz'
    exact (mem_setDiff.mp hz').2 (mem_setDiff.mp hz).1
  have hds : ∀ s ∈ setDiff cfg.subnets elb.subnets, s ∉ setDiff elb.subnets cfg.subnets := by
    intro s hs hs'
    exact (mem_setDiff.mp hs').2 (mem_setDiff.mp hs).1
  refine ⟨hdz, hds, ?_, ?_, ?_, ?_⟩
  · intro hp c hc
    simp only [set_zones, init_world, Option.isSome_none, Bool.false_eq_true, if_false, hp] at hc
    by_cases hz : cfg.zones = [] <;> simp only [hz, if_pos, if_neg, ite_true, ite_false] at hc
    · simp at hc
    · by_cases he : setDiff cfg.zones elb.availability_zones = [] <;>
        simp [he, ite_true, ite_false] at hc <;> simp [hc, ElbCall.isDisableZones]
  · intro hp c hc
    simp only [set_subnets, init_world, Option.isSome_none, Bool.false_eq_true, if_false,
      hp] at hc
    by_cases hz : cfg.subnets = [] <;> simp only [hz, if_pos, if_neg, ite_true, ite_false] at hc
    · simp at hc
    · by_cases he : setDiff cfg.subnets elb.subnets = [] <;>
        simp [he, ite_true, ite_false] at hc <;> simp [hc, ElbCall.isDetachSubnets]
  · simp only [set_zones, init_world, Option.isSome_none, Bool.false_eq_true, if_false]
    by_cases hz : cfg.zones = []
    · exact ⟨[], [], by simp [hz], by simp, by simp⟩
    · by_cases he : setDiff cfg.zones elb.availability_zones = [] <;>
        by_cases hd : (if cfg.purge_zones then setDiff elb.availability_zones cfg.zones
          else []) = []
      · exact ⟨[], [], by simp [hz, he, hd], by simp, by simp⟩
      · refine ⟨[], [ElbCall.disableZones (if cfg.purge_zones then
          setDiff elb.availability_zones cfg.zones else [])], by simp [hz, he, hd], by simp,
          by simp [ElbCall.isDisableZones]⟩
      · exact ⟨[ElbCall.enableZones (setDiff cfg.zones elb.availability_zones)], [],
          by simp [hz, he, hd], by simp [ElbCall.isEnableZones], by simp⟩
      · exact ⟨[ElbCall.enableZones (setDiff cfg.zones elb.availability_zones)],
          [ElbCall.disableZones (if cfg.purge_zones then
            setDiff elb.availability_zones cfg.zones else [])],
          by simp [hz, he, hd], by simp [ElbCall.isEnableZones],
          by simp [ElbCall.isDisableZones]⟩
  · simp only [set_subnets, init_world, Option.isSome_none, Bool.false_eq_true, if_false]
    by_cases hz : cfg.subnets = []
    · exact ⟨[], [], by simp [hz], by simp, by simp⟩
    · by_cases he : setDiff cfg.subnets elb.subnets = [] <;>
        by_cases hd : (if cfg.purge_subnets then setDiff elb.subnets cfg.subnets else []) = []
      · exact ⟨[], [], by simp [hz, he, hd], by simp, by simp⟩
      · refine ⟨[], [ElbCall.detachSubnets (if cfg.purge_subnets then
          setDiff elb.subnets cfg.subnets else [])], by simp [hz, he, hd], by simp,
          by simp [ElbCall.isDetachSubnets]⟩
      · exact ⟨[ElbCall.attachSubnets (setDiff cfg.subnets elb.subnets)], [],
          by simp [hz, he, hd], by simp [ElbCall.isAttachSubnets], by simp⟩
      · exact ⟨[ElbCall.attachSubnets (setDiff cfg.subnets elb.subnets)],
          [ElbCall.detachSubnets (if cfg.purge_subnets then
            setDiff elb.subnets cfg.subnets else [])],
          by simp [hz, he, hd], by simp [ElbCall.isAttachSubnets],
          by simp [ElbCall.isDetachSubnets]⟩

/-- Closed witness for `zone_subnet_diff_correct`: with the purge flags off
on a concrete configuration, the zone step issues no disable call and the
subnet step issues no detach call. -/
theorem zone_subnet_diff_correct_witness :
    cfgZones.purge_zones = false ∧ cfgZones.purge_subnets = false ∧
    (∀ c ∈ (set_zones cfgZones (init_world (some elbZones))).calls,
      c.isDisableZones = false) ∧
    (∀ c ∈ (set_subnets cfgZones (init_world (some elbZones))).calls,
      c.isDetachSubnets = false) :=
  ⟨rfl, rfl, (zone_subnet_diff_correct cfgZones elbZones).2.2.1 rfl,
    (zone_subnet_diff_correct cfgZones elbZones).2.2.2.1 rfl⟩

/-- C8.  `ensure_gone` deletes the resource and reports changed with status
deleted exactly when the named resource exists; when it is absent it issues
no call, reports changed false, and the status stays gone. -/
theorem ensure_gone_correct (elb0 : Option Elb) :
    (ensure_gone (init_world elb0)).changed = elb0.isSome ∧
    (ensure_gone (init_world elb0)).calls =
      (if elb0.isSome then [ElbCall.deleteLoadBalancer] else []) ∧
    (ensure_gone (init_world elb0)).status = (if elb0.isSome then "deleted" else "gone") := by
  cases elb0 <;> simp [ensure_gone, init_world]

/-- C9.  `_listener_as_tuple` always yields at least four elements, with
both protocol fields upper-cased, the instance protocol defaulting to the
upper-cased load balancer protocol when absent, and a fifth ssl certificate
element exactly when the input supplies one; and the listener diff depends
on desired listeners only through these canonical tuples, so listeners
differing only in protocol letter case are interchangeable. -/
theorem listener_tuple_normalization :
    (∀ l : Listener,
      4 ≤ (listener_as_tuple l).size ∧
      ((listener_as_tuple l).size = 5 ↔ l.ssl_certificate_id.isSome = true) ∧
      ((listener_as_tuple l).ssl_certificate_id.isSome = l.ssl_certificate_id.isSome) ∧
      (listener_as_tuple l).protocol = strUpper l.protocol ∧
      (listener_as_tuple l).instance_protocol =
        strUpper (l.instance_protocol.getD l.protocol) ∧
      (l.instance_protocol = none →
        (listener_as_tuple l).instance_protocol = strUpper l.protocol)) ∧
    (∀ (l : Listener) (p : String), strUpper p = strUpper l.protocol →
      listener_as_tuple { l with protocol := p } = listener_as_tuple l) ∧
    (∀ (ds₁ ds₂ : List Listener) (live : List ApiListener) (purge : Bool),
      ds₁.map listener_as_tuple = ds₂.map listener_as_tuple →
      set_elb_listeners ds₁ live purge = set_elb_listeners ds₂ live purge) := by
  refine ⟨?_, ?_, ?_⟩
  · intro l
    refine ⟨?_, ?_, ?_, rfl, ?_, ?_⟩
    · by_cases h : l.ssl_certificate_id.isSome <;>
        simp [ListenerTuple.size, listener_as_tuple, h]
    · by_cases h : l.ssl_certificate_id.isSome <;>
        simp [ListenerTuple.size, listener_as_tuple, h]
    · rfl
    · cases h : l.instance_protocol <;> simp [listener_as_tuple, h, Option.getD]
    · intro h
      simp [listener_as_tuple, h]
  · intro l p hp
    cases h : l.instance_protocol <;> simp [listener_as_tuple, h, hp]
  · intro ds₁ ds₂ live purge h
    have hdiff : diff_desired_listeners ds₁ live = diff_desired_listeners ds₂ live := by
      induction ds₁ generalizing ds₂ with
      | nil => cases ds₂ with
        | nil => rfl
        | cons d tl => simp at h
      | cons d₁ tl₁ ih =>
        cases ds₂ with
        | nil => simp at h
        | cons d₂ tl₂ =>
          simp only [List.map_cons, List.cons.injEq] at h
          obtain ⟨h1, h2⟩ := h
          have hport : d₁.load_balancer_port = d₂.load_balancer_port := by
            have := congrArg ListenerTuple.lb_port h1
            simpa [listener_as_tuple_lb_port] using this
          have ht := ih tl₂ h2
          simp only [diff_desired_listeners, hport, h1, ht]
    simp [set_elb_listeners, hdiff]

/-- C10.  Whenever the connection draining or cross zone sync step runs, it
issues its modify-attribute call unconditionally, and neither step assigns
the changed flag; this holds in particular when the live attribute values
already equal the desired ones. -/
theorem attribute_steps_unconditional (cfg : ElbConfig) (w : World) (elb : Elb)
    (hfail : w.failure = none) (helb : w.elb = some elb) :
    (set_connection_draining_timeout cfg w).calls =
      w.calls ++ [ElbCall.modifyConnectionDraining
        cfg.connection_draining_timeout.isSome cfg.connection_draining_timeout] ∧
    (set_connection_draining_timeout cfg w).changed = w.changed ∧
    (set_cross_az_load_balancing cfg w).calls =
      w.calls ++ [ElbCall.modifyCrossZone cfg.cross_az_load_balancing] ∧
    (set_cross_az_load_balancing cfg w).changed = w.changed := by
  cases hcd : cfg.connection_draining_timeout <;>
    simp [set_connection_draining_timeout, set_cross_az_load_balancing, hfail, helb, hcd]

/-- Closed witness for `attribute_steps_unconditional` at a state whose
live attribute values already equal the desired ones: the modify calls are
still issued and the changed flag is untouched. -/
theorem attribute_steps_unconditional_witness :
    (init_world (some elbAttrs)).failure = none ∧
    (init_world (some elbAttrs)).elb = some elbAttrs ∧
    elbAttrs.connection_draining_timeout = cfgAttrs.connection_draining_timeout ∧
    elbAttrs.cross_zone_enabled = cfgAttrs.cross_az_load_balancing ∧
    ((set_connection_draining_timeout cfgAttrs (init_world (some elbAttrs))).calls =
      (init_world (some elbAttrs)).calls ++ [ElbCall.modifyConnectionDraining
        cfgAttrs.connection_draining_timeout.isSome cfgAttrs.connection_draining_timeout] ∧
     (set_connection_draining_timeout cfgAttrs (init_world (some elbAttrs))).changed =
       (init_world (some elbAttrs)).changed ∧
     (set_cross_az_load_balancing cfgAttrs (init_world (some elbAttrs))).calls =
       (init_world (some elbAttrs)).calls ++
         [ElbCall.modifyCrossZone cfgAttrs.cross_az_load_balancing] ∧
     (set_cross_az_load_balancing cfgAttrs (init_world (some elbAttrs))).changed =
       (init_world (some elbAttrs)).changed) :=
  ⟨rfl, rfl, rfl, rfl,
    attribute_steps_unconditional cfgAttrs (init_world (some elbAttrs)) elbAttrs rfl rfl⟩

/-- C3.  At the failing input (live groups sg-1, desired groups sg-2) the
security group step issues exactly one apply call yet leaves the reconciler
changed flag false: the source assigns the misspelled `self.Changed`
attribute instead. -/
theorem security_groups_changed_flag_bug :
    (set_security_groups cfgSg (init_world (some elbSg))).calls =
      [ElbCall.applySecurityGroups ["sg-2"]] ∧
    (set_security_groups cfgSg (init_world (some elbSg))).changed = false ∧
    (set_security_groups cfgSg (init_world (some elbSg))).Changed = some true := by
  refine ⟨?_, ?_, ?_⟩ <;> decide

/-- Closed witness for `listener_tuple_normalization`: two desired listener
lists differing only in protocol letter case normalize to the same tuples
and produce the same diff against the sample live listeners. -/
theorem listener_tuple_normalization_witness :
    ([{ load_balancer_port := 80, instance_port := 80, protocol := "hTtP" }] :
        List Listener).map listener_as_tuple =
      ([{ load_balancer_port := 80, instance_port := 80, protocol := "http" }] :
        List Listener).map listener_as_tuple ∧
    set_elb_listeners [{ load_balancer_port := 80, instance_port := 80, protocol := "hTtP" }]
        sampleLive true =
      set_elb_listeners [{ load_balancer_port := 80, instance_port := 80, protocol := "http" }]
        sampleLive true :=
  ⟨by decide, listener_tuple_normalization.2.2 _ _ sampleLive true (by decide)⟩

/-- C7.  For a supplied health check configuration the sync step builds the
five-field desired descriptor, materializes an empty live descriptor when
the resource has none, issues the configure call exactly when the
field-by-field comparison finds a difference (and then sets changed), and
issues nothing otherwise; the comparison is true exactly when one of the
five fields differs. -/
theorem health_check_sync_correct (cfg : ElbConfig) (w : World) (elb : Elb)
    (hc : HealthCheckConfig) (hfail : w.failure = none) (helb : w.elb = some elb)
    (hhc : cfg.health_check = some hc) :
    (set_health_check cfg w).calls = w.calls ++
      (if health_check_needs_update (elb.health_check.getD {}) (desired_health_check hc)
       then [ElbCall.configureHealthCheck (desired_health_check hc)] else []) ∧
    (set_health_check cfg w).changed =
      (w.changed ||
        health_check_needs_update (elb.health_check.getD {}) (desired_health_check hc)) ∧
    (health_check_needs_update (elb.health_check.getD {}) (desired_health_check hc) = true ↔
      ((elb.health_check.getD {}).target ≠ some (get_health_check_target hc) ∨
       (elb.health_check.getD {}).timeout ≠ some hc.response_timeout ∨
       (elb.health_check.getD {}).interval ≠ some hc.interval ∨
       (elb.health_check.getD {}).unhealthy_threshold ≠ some hc.unhealthy_threshold ∨
       (elb.health_check.getD {}).healthy_threshold ≠ some hc.healthy_threshold)) := by
  refine ⟨?_, ?_, ?_⟩
  · by_cases hupd : health_check_needs_update (elb.health_check.getD {})
        (desired_health_check hc) = true
    · simp [set_health_check, hfail, helb, hhc, hupd]
    · simp only [Bool.not_eq_true] at hupd
      simp [set_health_check, hfail, helb, hhc, hupd]
  · by_cases hupd : health_check_needs_update (elb.health_check.getD {})
        (desired_health_check hc) = true
    · simp [set_health_check, hfail, helb, hhc, hupd]
    · simp only [Bool.not_eq_true] at hupd
      simp [set_health_check, hfail, helb, hhc, hupd]
  · simp [health_check_needs_update, desired_health_check, or_assoc]

/-- Closed witness for `health_check_sync_correct`: against a live
descriptor differing only in the interval field, the configure call is
issued and changed becomes true. -/
theorem health_check_sync_correct_witness :
    (init_world (some elbHealth)).failure = none ∧
    (init_world (some elbHealth)).elb = some elbHealth ∧
    cfgHealth.health_check = some hcFix ∧
    (set_health_check cfgHealth (init_world (some elbHealth))).calls =
      (init_world (some elbHealth)).calls ++
      (if health_check_needs_update (elbHealth.health_check.getD {})
          (desired_health_check hcFix)
       then [ElbCall.configureHealthCheck (desired_health_check hcFix)] else []) :=
  ⟨rfl, rfl, rfl,
    (health_check_sync_correct cfgHealth (init_world (some elbHealth)) elbHealth hcFix
      rfl rfl rfl).1⟩

/-- C4 counterexample.  With a disabled loadbalancer stickiness
configuration, no live policies, and the changed flag already true from
earlier sync steps, the step resets changed to false and still issues the
delete-policy call even though no policy with the deterministic name is
present — contradicting the claim that the flag is retained and that the
delete happens only if such a policy exists. -/
theorem stickiness_disabled_claim_counterexample :
    elbStickOff.lb_cookie_stickiness_policies = [] ∧
    wStickOff.changed = true ∧
    (select_stickiness_policy cfgStickOff wStickOff).changed = false ∧
    ElbCall.deletePolicy (policy_name "LBCookieStickinessPolicyType") ∈
      (select_stickiness_policy cfgStickOff wStickOff).calls := by
  refine ⟨rfl, rfl, ?_, ?_⟩ <;> decide

/-- C4 (amended).  For a disabled stickiness configuration the step
detaches policies from all HTTP listeners and then always issues the delete
call for the deterministically named policy; changed becomes true only when
the first policy of the corresponding live list bears that name; for type
loadbalancer an empty policy list resets changed to false, while in every
other no-match case (and for type application always) the prior flag value
is retained. -/
theorem stickiness_disabled_behavior (cfg : ElbConfig) (w : World) (elb : Elb)
    (st : StickinessConfig) (hfail : w.failure = none) (helb : w.elb = some elb)
    (hst : cfg.stickiness = some st) (hen : st.enabled = false)
    (hexcl : ¬ (st.cookie.isSome ∧ st.expiration.isSome)) :
    (st.stype = "loadbalancer" →
      (select_stickiness_policy cfg w).calls =
        w.calls ++ listener_policy_calls (listeners_dict elb) [] ++
          [ElbCall.deletePolicy (policy_name "LBCookieStickinessPolicyType")] ∧
      (select_stickiness_policy cfg w).changed =
        (match elb.lb_cookie_stickiness_policies with
          | [] => false
          | p :: _ =>
            if p.policy_name = policy_name "LBCookieStickinessPolicyType" then true
            else w.changed)) ∧
    (st.stype = "application" →
      (select_stickiness_policy cfg w).calls =
        w.calls ++ listener_policy_calls (listeners_dict elb) [] ++
          [ElbCall.deletePolicy (policy_name "AppCookieStickinessPolicyType")] ∧
      (select_stickiness_policy cfg w).changed =
        (match elb.app_cookie_stickiness_policies with
          | [] => w.changed
          | p :: _ =>
            if p.policy_name = policy_name "AppCookieStickinessPolicyType" then true
            else w.changed)) := by
  constructor
  · intro hty
    simp only [select_stickiness_policy, hfail, helb, hst, hty, hen, if_neg hexcl,
      Option.isSome_none, Bool.false_eq_true, if_false, ite_true, ite_false,
      Bool.false_eq_true]
    cases hpol : elb.lb_cookie_stickiness_policies with
    | nil =>
      simp [set_listener_policy, List.append_assoc]
    | cons p rest =>
      by_cases hname : p.policy_name = policy_name "LBCookieStickinessPolicyType" <;>
        simp [hname, set_listener_policy, List.append_assoc]
  · intro hty
    have hlb : ¬ (st.stype = "loadbalancer") := by
      rw [hty]; decide
    simp only [select_stickiness_policy, hfail, helb, hst, hty, hen, if_neg hexcl,
      if_neg hlb, Option.isSome_none, Bool.false_eq_true, if_false, ite_true, ite_false]
    cases hpol : elb.app_cookie_stickiness_policies with
    | nil =>
      simp [set_listener_policy, List.append_assoc]
    | cons p rest =>
      by_cases hname : p.policy_name = policy_name "AppCookieStickinessPolicyType" <;>
        simp [hname, set_listener_policy, List.append_assoc]

/-- Closed witness for `stickiness_disabled_behavior` on the concrete
disabled loadbalancer configuration. -/
theorem stickiness_disabled_behavior_witness :
    ({ stype := "loadbalancer", enabled := false } : StickinessConfig).enabled = false ∧
    cfgStickOff.stickiness = some { stype := "loadbalancer", enabled := false } ∧
    (select_stickiness_policy cfgStickOff (init_world (some elbStickOff))).calls =
      (init_world (some elbStickOff)).calls ++
        listener_policy_calls (listeners_dict elbStickOff) [] ++
        [ElbCall.deletePolicy (policy_name "LBCookieStickinessPolicyType")] :=
  ⟨rfl, rfl, ((stickiness_disabled_behavior cfgStickOff (init_world (some elbStickOff))
      elbStickOff _ rfl rfl rfl rfl (by decide)).1 rfl).1⟩

/-- Frame of the zone step: it appends only zone calls, preserves the
absence of a failure, and keeps the resource present. -/
theorem set_zones_frame (cfg : ElbConfig) (w : World) (hfail : w.failure = none) :
    ∃ extra, (set_zones cfg w).calls = w.calls ++ extra ∧
      (∀ c ∈ extra, c.isStickinessCall = false) ∧
      (set_zones cfg w).failure = none ∧ (set_zones cfg w).elb.isSome = w.elb.isSome := by
  cases helb : w.elb with
  | none => refine ⟨[], ?_, ?_, ?_, ?_⟩ <;> simp [set_zones, hfail, helb]
  | some elb =>
    by_cases hz : cfg.zones = []
    · refine ⟨[], ?_, ?_, ?_, ?_⟩ <;> simp [set_zones, hfail, helb, hz]
    · by_cases he : setDiff cfg.zones elb.availability_zones = [] <;>
        by_cases hd : (if cfg.purge_zones then setDiff elb.availability_zones cfg.zones
          else []) = []
      · refine ⟨[], ?_, ?_, ?_, ?_⟩ <;> simp [set_zones, hfail, helb, hz, he, hd]
      · refine ⟨[ElbCall.disableZones
            (if cfg.purge_zones then setDiff elb.availability_zones cfg.zones else [])],
          ?_, ?_, ?_, ?_⟩ <;>
          simp [set_zones, hfail, helb, hz, he, hd, ElbCall.isStickinessCall]
      · refine ⟨[ElbCall.enableZones (setDiff cfg.zones elb.availability_zones)],
          ?_, ?_, ?_, ?_⟩ <;>
          simp [set_zones, hfail, helb, hz, he, hd, ElbCall.isStickinessCall]
      · refine ⟨[ElbCall.enableZones (setDiff cfg.zones elb.availability_zones),
          ElbCall.disableZones
            (if cfg.purge_zones then setDiff elb.availability_zones cfg.zones else [])],
          ?_, ?_, ?_, ?_⟩ <;>
          simp [set_zones, hfail, helb, hz, he, hd, ElbCall.isStickinessCall,
            List.append_assoc]

/-- Frame of the subnet step. -/
theorem set_subnets_frame (cfg : ElbConfig) (w : World) (hfail : w.failure = none) :
    ∃ extra, (set_subnets cfg w).calls = w.calls ++ extra ∧
      (∀ c ∈ extra, c.isStickinessCall = false) ∧
      (set_subnets cfg w).failure = none ∧ (set_subnets cfg w).elb.isSome = w.elb.isSome := by
  cases helb : w.elb with
  | none => refine ⟨[], ?_, ?_, ?_, ?_⟩ <;> simp [set_subnets, hfail, helb]
  | some elb =>
    by_cases hz : cfg.subnets = []
    · refine ⟨[], ?_, ?_, ?_, ?_⟩ <;> simp [set_subnets, hfail, helb, hz]
    · by_cases he : setDiff cfg.subnets elb.subnets = [] <;>
        by_cases hd : (if cfg.purge_subnets then setDiff elb.subnets cfg.subnets else []) = []
      · refine ⟨[], ?_, ?_, ?_, ?_⟩ <;> simp [set_subnets, hfail, helb, hz, he, hd]
      · refine ⟨[ElbCall.detachSubnets
            (if cfg.purge_subnets then setDiff elb.subnets cfg.subnets else [])],
          ?_, ?_, ?_, ?_⟩ <;>
          simp [set_subnets, hfail, helb, hz, he, hd, ElbCall.isStickinessCall]
      · refine ⟨[ElbCall.attachSubnets (setDiff cfg.subnets elb.subnets)],
          ?_, ?_, ?_, ?_⟩ <;>
          simp [set_subnets, hfail, helb, hz, he, hd, ElbCall.isStickinessCall]
      · refine ⟨[ElbCall.attachSubnets (setDiff cfg.subnets elb.subnets),
          ElbCall.detachSubnets
            (if cfg.purge_subnets then setDiff elb.subnets cfg.subnets else [])],
          ?_, ?_, ?_, ?_⟩ <;>
          simp [set_subnets, hfail, helb, hz, he, hd, ElbCall.isStickinessCall,
            List.append_assoc]

/-- Frame of the security group step. -/
theorem set_security_groups_frame (cfg : ElbConfig) (w : World) (hfail : w.failure = none) :
    ∃ extra, (set_security_groups cfg w).calls = w.calls ++ extra ∧
      (∀ c ∈ extra, c.isStickinessCall = false) ∧
      (set_security_groups cfg w).failure = none ∧
      (set_security_groups cfg w).elb.isSome = w.elb.isSome := by
  cases helb : w.elb with
  | none => refine ⟨[], ?_, ?_, ?_, ?_⟩ <;> simp [set_security_groups, hfail, helb]
  | some elb =>
    cases hsg : cfg.security_group_ids with
    | none => refine ⟨[], ?_, ?_, ?_, ?_⟩ <;> simp [set_security_groups, hfail, helb, hsg]
    | some sgs =>
      by_cases hs : sameSet elb.security_groups sgs
      · refine ⟨[], ?_, ?_, ?_, ?_⟩ <;> simp [set_security_groups, hfail, helb, hsg, hs]
      · refine ⟨[ElbCall.applySecurityGroups sgs], ?_, ?_, ?_, ?_⟩ <;>
          simp [set_security_groups, hfail, helb, hsg, hs, ElbCall.isStickinessCall]

/-- Frame of the listener step. -/
theorem set_elb_listeners_step_frame (cfg : ElbConfig) (w : World) (hfail : w.failure = none) :
    ∃ extra, (set_elb_listeners_step cfg w).calls = w.calls ++ extra ∧
      (∀ c ∈ extra, c.isStickinessCall = false) ∧
      (set_elb_listeners_step cfg w).failure = none ∧
      (set_elb_listeners_step cfg w).elb.isSome = w.elb.isSome := by
  cases helb : w.elb with
  | none => refine ⟨[], ?_, ?_, ?_, ?_⟩ <;> simp [set_elb_listeners_step, hfail, helb]
  | some elb =>
    by_cases hrem : (set_elb_listeners cfg.listeners elb.listeners cfg.purge_listeners).1 = [] <;>
      by_cases hadd : (set_elb_listeners cfg.listeners elb.listeners cfg.purge_listeners).2 = []
    · refine ⟨[], ?_, ?_, ?_, ?_⟩ <;> simp [set_elb_listeners_step, hfail, helb, hrem, hadd]
    · refine ⟨[ElbCall.createListeners
          (set_elb_listeners cfg.listeners elb.listeners cfg.purge_listeners).2],
        ?_, ?_, ?_, ?_⟩ <;>
        simp [set_elb_listeners_step, hfail, helb, hrem, hadd, ElbCall.isStickinessCall]
    · refine ⟨[ElbCall.deleteListeners
          ((set_elb_listeners cfg.listeners elb.listeners cfg.purge_listeners).1.map
            (fun t => t.lb_port))], ?_, ?_, ?_, ?_⟩ <;>
        simp [set_elb_listeners_step, hfail, helb, hrem, hadd, ElbCall.isStickinessCall]
    · refine ⟨[ElbCall.deleteListeners
          ((set_elb_listeners cfg.listeners elb.listeners cfg.purge_listeners).1.map
            (fun t => t.lb_port)),
        ElbCall.createListeners
          (set_elb_listeners cfg.listeners elb.listeners cfg.purge_listeners).2],
        ?_, ?_, ?_, ?_⟩ <;>
        simp [set_elb_listeners_step, hfail, helb, hrem, hadd, ElbCall.isStickinessCall,
          List.append_assoc]

/-- Frame of the health check step. -/
theorem set_health_check_frame (cfg : ElbConfig) (w : World) (hfail : w.failure = none) :
    ∃ extra, (set_health_check cfg w).calls = w.calls ++ extra ∧
      (∀ c ∈ extra, c.isStickinessCall = false) ∧
      (set_health_check cfg w).failure = none ∧
      (set_health_check cfg w).elb.isSome = w.elb.isSome := by
  cases helb : w.elb with
  | none => refine ⟨[], ?_, ?_, ?_, ?_⟩ <;> simp [set_health_check, hfail, helb]
  | some elb =>
    cases hhc : cfg.health_check with
    | none => refine ⟨[], ?_, ?_, ?_, ?_⟩ <;> simp [set_health_check, hfail, helb, hhc]
    | some hc =>
      by_cases hupd : health_check_needs_update (elb.health_check.getD {})
          (desired_health_check hc) = true
      · refine ⟨[ElbCall.configureHealthCheck (desired_health_check hc)], ?_, ?_, ?_, ?_⟩ <;>
          simp [set_health_check, hfail, helb, hhc, hupd, ElbCall.isStickinessCall]
      · simp only [Bool.not_eq_true] at hupd
        refine ⟨[], ?_, ?_, ?_, ?_⟩ <;> simp [set_health_check, hfail, helb, hhc, hupd]

/-- Frame of the connection draining step. -/
theorem set_connection_draining_frame (cfg : ElbConfig) (w : World) (hfail : w.failure = none) :
    ∃ extra, (set_connection_draining_timeout cfg w).calls = w.calls ++ extra ∧
      (∀ c ∈ extra, c.isStickinessCall = false) ∧
      (set_connection_draining_timeout cfg w).failure = none ∧
      (set_connection_draining_timeout cfg w).elb.isSome = w.elb.isSome := by
  cases helb : w.elb with
  | none =>
    refine ⟨[], ?_, ?_, ?_, ?_⟩ <;> simp [set_connection_draining_timeout, hfail, helb]
  | some elb =>
    cases hcd : cfg.connection_draining_timeout with
    | none =>
      refine ⟨[ElbCall.modifyConnectionDraining false none], ?_, ?_, ?_, ?_⟩ <;>
        simp [set_connection_draining_timeout, hfail, helb, hcd, ElbCall.isStickinessCall]
    | some t =>
      refine ⟨[ElbCall.modifyConnectionDraining true (some t)], ?_, ?_, ?_, ?_⟩ <;>
        simp [set_connection_draining_timeout, hfail, helb, hcd, ElbCall.isStickinessCall]

/-- Frame of the cross zone step. -/
theorem set_cross_az_frame (cfg : ElbConfig) (w : World) (hfail : w.failure = none) :
    ∃ extra, (set_cross_az_load_balancing cfg w).calls = w.calls ++ extra ∧
      (∀ c ∈ extra, c.isStickinessCall = false) ∧
      (set_cross_az_load_balancing cfg w).failure = none ∧
      (set_cross_az_load_balancing cfg w).elb.isSome = w.elb.isSome := by
  cases helb : w.elb with
  | none => refine ⟨[], ?_, ?_, ?_, ?_⟩ <;> simp [set_cross_az_load_balancing, hfail, helb]
  | some elb =>
    refine ⟨[ElbCall.modifyCrossZone cfg.cross_az_load_balancing], ?_, ?_, ?_, ?_⟩ <;>
      simp [set_cross_az_load_balancing, hfail, helb, ElbCall.isStickinessCall]

/-- Frame of resource creation: one create call, no failure, resource
present afterwards. -/
theorem create_elb_frame (cfg : ElbConfig) (w : World) (hfail : w.failure = none) :
    ∃ extra, (create_elb cfg w).calls = w.calls ++ extra ∧
      (∀ c ∈ extra, c.isStickinessCall = false) ∧
      (create_elb cfg w).failure = none ∧ (create_elb cfg w).elb.isSome = true := by
  refine ⟨[ElbCall.createLoadBalancer], ?_, ?_, ?_, ?_⟩ <;>
    simp [create_elb, hfail, ElbCall.isStickinessCall]

/-- With both the cookie and the expiration key supplied, the stickiness
step fails immediately and issues no call at all. -/
theorem select_stickiness_both_keys (cfg : ElbConfig) (w : World) (st : StickinessConfig)
    (hfail : w.failure = none) (hsome : w.elb.isSome = true)
    (hst : cfg.stickiness = some st) (hck : st.cookie.isSome = true)
    (hex : st.expiration.isSome = true) :
    select_stickiness_policy cfg w =
      { w with failure := some "cookie and expiration can not be set at the same time" } := by
  obtain ⟨elb, helb⟩ := Option.isSome_iff_exists.mp hsome
  simp [select_stickiness_policy, hfail, helb, hst, hck, hex]

/-- C5 (amended).  When the stickiness configuration carries both the
cookie and the expiration key, the reconciliation ends in the configuration
failure and no stickiness policy mutation is ever issued; sync steps
running before the stickiness step may however already have issued their
(non-stickiness) provider calls. -/
theorem stickiness_exclusivity (cfg : ElbConfig) (elb0 : Option Elb) (st : StickinessConfig)
    (hst : cfg.stickiness = some st) (hck : st.cookie.isSome = true)
    (hex : st.expiration.isSome = true) :
    (ensure_ok cfg (init_world elb0)).failure.isSome = true ∧
    ∀ c ∈ (ensure_ok cfg (init_world elb0)).calls, c.isStickinessCall = false := by
  have tail : ∀ wa : World, wa.failure = none → wa.elb.isSome = true →
      ∃ extra,
        (select_stickiness_policy cfg
          (if cfg.supports_cross_zone then
            set_cross_az_load_balancing cfg
              (if cfg.supports_connection_draining then
                set_connection_draining_timeout cfg (set_health_check cfg wa)
              else set_health_check cfg wa)
          else
            if cfg.supports_connection_draining then
              set_connection_draining_timeout cfg (set_health_check cfg wa)
            else set_health_check cfg wa)).calls = wa.calls ++ extra ∧
        (∀ c ∈ extra, c.isStickinessCall = false) ∧
        (select_stickiness_policy cfg
          (if cfg.supports_cross_zone then
            set_cross_az_load_balancing cfg
              (if cfg.supports_connection_draining then
                set_connection_draining_timeout cfg (set_health_check cfg wa)
              else set_health_check cfg wa)
          else
            if cfg.supports_connection_draining then
              set_connection_draining_timeout cfg (set_health_check cfg wa)
            else set_health_check cfg wa)).failure.isSome = true := by
    intro wa hfa hsa
    obtain ⟨eb, hb1, hb2, hb3, hb4⟩ := set_health_check_frame cfg wa hfa
    rw [hsa] at hb4
    have hc :
        ∃ extra, (if cfg.supports_connection_draining then
            set_connection_draining_timeout cfg (set_health_check cfg wa)
          else set_health_check cfg wa).calls = wa.calls ++ extra ∧
          (∀ c ∈ extra, c.isStickinessCall = false) ∧
          (if cfg.supports_connection_draining then
            set_connection_draining_timeout cfg (set_health_check cfg wa)
          else set_health_check cfg wa).failure = none ∧
          (if cfg.supports_connection_draining then
            set_connection_draining_timeout cfg (set_health_check cfg wa)
          else set_health_check cfg wa).elb.isSome = true := by
      cases hsup : cfg.supports_connection_draining with
      | false => exact ⟨eb, by simp [hb1], hb2, by simp [hb3], by simp [hb4]⟩
      | true =>
        obtain ⟨ec, hc1, hc2, hc3, hc4⟩ :=
          set_connection_draining_frame cfg (set_health_check cfg wa) hb3
        exact ⟨eb ++ ec, by simp [hc1, hb1, List.append_assoc], by
          intro c hcm
          rcases List.mem_append.mp hcm with h | h
          exacts [hb2 c h, hc2 c h], by simp [hc3], by simp [hc4, hb4]⟩
    obtain ⟨ec, hc1, hc2, hc3, hc4⟩ := hc
    have hd :
        ∃ extra, (if cfg.supports_cross_zone then
            set_cross_az_load_balancing cfg
              (if cfg.supports_connection_draining then
                set_connection_draining_timeout cfg (set_health_check cfg wa)
              else set_health_check cfg wa)
          else
            if cfg.supports_connection_draining then
              set_connection_draining_timeout cfg (set_health_check cfg wa)
            else set_health_check cfg wa).calls = wa.calls ++ extra ∧
          (∀ c ∈ extra, c.isStickinessCall = false) ∧
          (if cfg.supports_cross_zone then
            set_cross_az_load_balancing cfg
              (if cfg.supports_connection_draining then
                set_connection_draining_timeout cfg (set_health_check cfg wa)
              else set_health_check cfg wa)
          else
            if cfg.supports_connection_draining then
              set_connection_draining_timeout cfg (set_health_check cfg wa)
            else set_health_check cfg wa).failure = none ∧
          (if cfg.supports_cross_zone then
            set_cross_az_load_balancing cfg
              (if cfg.supports_connection_draining then
                set_connection_draining_timeout cfg (set_health_check cfg wa)
              else set_health_check cfg wa)
          else
            if cfg.supports_connection_draining then
              set_connection_draining_timeout cfg (set_health_check cfg wa)
            else set_health_check cfg wa).elb.isSome = true := by
      cases hsup : cfg.supports_cross_zone with
      | false => exact ⟨ec, by simp [hc1], hc2, by simp [hc3], by simp [hc4]⟩
      | true =>
        obtain ⟨ed, hd1, hd2, hd3, hd4⟩ := set_cross_az_frame cfg _ hc3
        exact ⟨ec ++ ed, by simp [hd1, hc1, List.append_assoc], by
          intro c hcm
          rcases List.mem_append.mp hcm with h | h
          exacts [hc2 c h, hd2 c h], by simp [hd3], by simp [hd4, hc4]⟩
    obtain ⟨ed, hd1, hd2, hd3, hd4⟩ := hd
    rw [select_stickiness_both_keys cfg _ st hd3 hd4 hst hck hex]
    exact ⟨ed, hd1, hd2, rfl⟩
  cases elb0 with
  | none =>
    obtain ⟨ea, ha1, ha2, ha3, ha4⟩ := create_elb_frame cfg (init_world none) rfl
    obtain ⟨et, ht1, ht2, ht3⟩ := tail (create_elb cfg (init_world none)) ha3 ha4
    refine ⟨ht3, ?_⟩
    intro c hcm
    rw [show (ensure_ok cfg (init_world none)).calls =
        (create_elb cfg (init_world none)).calls ++ et from ht1] at hcm
    rcases List.mem_append.mp hcm with h | h
    · rw [ha1] at h
      rcases List.mem_append.mp h with h | h
      · simp [init_world] at h
      · exact ha2 c h
    · exact ht2 c h
  | some elb =>
    have hf0 : (init_world (some elb)).failure = none := rfl
    obtain ⟨e1, h11, h12, h13, h14⟩ := set_zones_frame cfg (init_world (some elb)) hf0
    obtain ⟨e2, h21, h22, h23, h24⟩ :=
      set_security_groups_frame cfg (set_zones cfg (init_world (some elb))) h13
    obtain ⟨e3, h31, h32, h33, h34⟩ := set_elb_listeners_step_frame cfg
      (set_security_groups cfg (set_zones cfg (init_world (some elb)))) h23
    obtain ⟨e4, h41, h42, h43, h44⟩ := set_subnets_frame cfg
      (set_elb_listeners_step cfg
        (set_security_groups cfg (set_zones cfg (init_world (some elb))))) h33
    have hsa : (set_subnets cfg (set_elb_listeners_step cfg
        (set_security_groups cfg (set_zones cfg (init_world (some elb)))))).elb.isSome =
        true := by
      rw [h44, h34, h24, h14]; rfl
    obtain ⟨et, ht1, ht2, ht3⟩ := tail _ h43 hsa
    refine ⟨ht3, ?_⟩
    intro c hcm
    rw [show (ensure_ok cfg (init_world (some elb))).calls = _ ++ et from ht1] at hcm
    rcases List.mem_append.mp hcm with h | h
    · rw [h41] at h
      rcases List.mem_append.mp h with h | h
      · rw [h31] at h
        rcases List.mem_append.mp h with h | h
        · rw [h21] at h
          rcases List.mem_append.mp h with h | h
          · rw [h11] at h
            rcases List.mem_append.mp h with h | h
            · simp [init_world] at h
            · exact h12 c h
          · exact h22 c h
        · exact h32 c h
      · exact h42 c h
    · exact ht2 c h

/-- Closed witness for `stickiness_exclusivity` on a concrete both-keys
configuration. -/
theorem stickiness_exclusivity_witness :
    cfgBothKeys.stickiness = some { stype := "loadbalancer", enabled := true, expiration := some 300, cookie := some "SESSION" } ∧
    (some (300 : Int)).isSome = true ∧ (some "SESSION").isSome = true ∧
    ((ensure_ok cfgBothKeys (init_world (some elbBothKeys))).failure.isSome = true ∧
     ∀ c ∈ (ensure_ok cfgBothKeys (init_world (some elbBothKeys))).calls,
       c.isStickinessCall = false) :=
  ⟨rfl, rfl, rfl, stickiness_exclusivity cfgBothKeys (some elbBothKeys) _ rfl rfl rfl⟩

/-- C5 counterexample.  At a both-keys configuration whose zone list
differs from the live resource, the reconciliation does fail, but only
after the zone sync has already issued an enable-zones provider call — so
the failure does not precede every provider call as claimed. -/
theorem stickiness_exclusivity_counterexample :
    (ensure_ok cfgBothKeys (init_world (some elbBothKeys))).failure.isSome = true ∧
    ElbCall.enableZones ["us-east-1a"] ∈
      (ensure_ok cfgBothKeys (init_world (some elbBothKeys))).calls := by
  refine ⟨?_, ?_⟩ <;> decide

/-- A set equals itself. -/
theorem sameSet_refl (a : List String) : sameSet a a = true := by
  simp [sameSet]

/-- Canonicalizing the provider listener created from a tuple gives the
tuple back, provided the tuple does not carry an empty certificate id. -/
theorem api_round_trip (t : ListenerTuple) (h : t.ssl_certificate_id ≠ some "") :
    api_listener_as_tuple (tuple_to_api_listener t) = t := by
  obtain ⟨p, ip, pr, ipr, ssl⟩ := t
  cases ssl with
  | none => rfl
  | some s =>
    simp only [ne_eq, Option.some.injEq] at h
    simp [api_listener_as_tuple, tuple_to_api_listener, h]

/-- Two live listeners with the same port are the same listener. -/
theorem live_unique {live : List ApiListener} (hU : UniquePorts live)
    {e e' : ApiListener} (he : e ∈ live) (he' : e' ∈ live)
    (hp : e.lb_port = e'.lb_port) : e = e' := by
  by_contra hne
  exact List.Pairwise.forall (fun {a b} h => h.symm) hU he he' hne hp

/-- Two desired listeners with the same port are the same listener. -/
theorem desired_unique {ds : List Listener}
    (h : ds.Pairwise (fun a b => a.load_balancer_port ≠ b.load_balancer_port))
    {d d' : Listener} (hd : d ∈ ds) (hd' : d' ∈ ds)
    (hp : d.load_balancer_port = d'.load_balancer_port) : d = d' := by
  by_contra hne
  exact List.Pairwise.forall (fun {a b} hh => hh.symm) h hd hd' hne hp

/-- Scanning an appended list when the first part has no hit. -/
theorem find?_append_of_none {α : Type} {p : α → Bool} {l₁ l₂ : List α}
    (h : l₁.find? p = none) : (l₁ ++ l₂).find? p = l₂.find? p := by
  rw [List.find?_append, h]
  rfl

/-- A failed field-by-field comparison means the two descriptors agree. -/
theorem health_check_no_update_eq {cur des : LiveHealthCheck}
    (h : health_check_needs_update cur des = false) : cur = des := by
  simp only [health_check_needs_update, Bool.or_eq_false_iff, decide_eq_false_iff_not,
    not_not] at h
  obtain ⟨⟨⟨⟨h1, h2⟩, h3⟩, h4⟩, h5⟩ := h
  obtain ⟨t1, t2, t3, t4, t5⟩ := cur
  obtain ⟨u1, u2, u3, u4, u5⟩ := des
  simp_all

/-- After the zone step the live zone list is converged with the desired
configuration, and only the zone field of the resource changes. -/
theorem set_zones_establishes (cfg : ElbConfig) (w : World) (elb : Elb)
    (hfail : w.failure = none) (helb : w.elb = some elb) :
    ∃ zs, (set_zones cfg w).elb = some { elb with availability_zones := zs } ∧
      zones_converged cfg zs ∧ (set_zones cfg w).failure = none := by
  by_cases hz : cfg.zones = []
  · refine ⟨elb.availability_zones, ?_, ?_, ?_⟩
    · simp [set_zones, hfail, helb, hz]
    · intro hne
      exact absurd hz hne
    · simp [set_zones, hfail, helb, hz]
  · have hmem : ∀ zs : List String,
        (∀ z, z ∈ zs ↔ ((z ∈ elb.availability_zones ∨
            z ∈ setDiff cfg.zones elb.availability_zones) ∧
          z ∉ (if cfg.purge_zones then setDiff elb.availability_zones cfg.zones else []))) →
        zones_converged cfg zs := by
      intro zs hzs _
      constructor
      · intro z hzc
        rw [hzs]
        constructor
        · by_cases hin : z ∈ elb.availability_zones
          · exact Or.inl hin
          · exact Or.inr (mem_setDiff.mpr ⟨hzc, hin⟩)
        · cases hp : cfg.purge_zones with
          | false => simp
          | true =>
            simp only [if_pos]
            intro hzd
            exact (mem_setDiff.mp hzd).2 hzc
      · intro hp z hzz
        rw [hzs] at hzz
        obtain ⟨h1, h2⟩ := hzz
        rcases h1 with h1 | h1
        · rw [hp] at h2
          simp only [if_pos] at h2
          by_contra hnc
          exact h2 (mem_setDiff.mpr ⟨h1, hnc⟩)
        · exact (mem_setDiff.mp h1).1
    by_cases he : setDiff cfg.zones elb.availability_zones = [] <;>
      by_cases hd : (if cfg.purge_zones then setDiff elb.availability_zones cfg.zones
        else []) = []
    · refine ⟨elb.availability_zones, ?_, hmem _ ?_, ?_⟩
      · simp [set_zones, hfail, helb, hz, he, hd]
      · intro z
        simp [he, hd]
      · simp [set_zones, hfail, helb, hz, he, hd]
    · refine ⟨elb.availability_zones.filter (fun z => decide (z ∉
        (if cfg.purge_zones then setDiff elb.availability_zones cfg.zones else []))),
        ?_, hmem _ ?_, ?_⟩
      · simp [set_zones, hfail, helb, hz, he, hd]
      · intro z
        cases hp : cfg.purge_zones <;>
          simp [List.mem_filter, he, hp] <;> tauto
      · simp [set_zones, hfail, helb, hz, he, hd]
    · refine ⟨elb.availability_zones ++ setDiff cfg.zones elb.availability_zones,
        ?_, hmem _ ?_, ?_⟩
      · simp [set_zones, hfail, helb, hz, he, hd]
      · intro z
        simp [List.mem_append, hd]
      · simp [set_zones, hfail, helb, hz, he, hd]
    · refine ⟨(elb.availability_zones ++ setDiff cfg.zones elb.availability_zones).filter
        (fun z => decide (z ∉
          (if cfg.purge_zones then setDiff elb.availability_zones cfg.zones else []))),
        ?_, hmem _ ?_, ?_⟩
      · simp [set_zones, hfail, helb, hz, he, hd]
      · intro z
        cases hp : cfg.purge_zones <;>
          simp [List.mem_filter, List.mem_append, hp] <;> tauto
      · simp [set_zones, hfail, helb, hz, he, hd]

/-- After the subnet step the live subnet list is converged with the
desired configuration, and only the subnet field changes. -/
theorem set_subnets_establishes (cfg : ElbConfig) (w : World) (elb : Elb)
    (hfail : w.failure = none) (helb : w.elb = some elb) :
    ∃ ss, (set_subnets cfg w).elb = some { elb with subnets := ss } ∧
      subnets_converged cfg ss ∧ (set_subnets cfg w).failure = none := by
  by_cases hz : cfg.subnets = []
  · refine ⟨elb.subnets, ?_, ?_, ?_⟩
    · simp [set_subnets, hfail, helb, hz]
    · intro hne
      exact absurd hz hne
    · simp [set_subnets, hfail, helb, hz]
  · have hmem : ∀ ss : List String,
        (∀ z, z ∈ ss ↔ ((z ∈ elb.subnets ∨ z ∈ setDiff cfg.subnets elb.subnets) ∧
          z ∉ (if cfg.purge_subnets then setDiff elb.subnets cfg.subnets else []))) →
        subnets_converged cfg ss := by
      intro ss hss _
      constructor
      · intro z hzc
        rw [hss]
        constructor
        · by_cases hin : z ∈ elb.subnets
          · exact Or.inl hin
          · exact Or.inr (mem_setDiff.mpr ⟨hzc, hin⟩)
        · cases hp : cfg.purge_subnets with
          | false => simp
          | true =>
            simp only [if_pos]
            intro hzd
            exact (mem_setDiff.mp hzd).2 hzc
      · intro hp z hzz
        rw [hss] at hzz
        obtain ⟨h1, h2⟩ := hzz
        rcases h1 with h1 | h1
        · rw [hp] at h2
          simp only [if_pos] at h2
          by_contra hnc
          exact h2 (mem_setDiff.mpr ⟨h1, hnc⟩)
        · exact (mem_setDiff.mp h1).1
    by_cases he : setDiff cfg.subnets elb.subnets = [] <;>
      by_cases hd : (if cfg.purge_subnets then setDiff elb.subnets cfg.subnets else []) = []
    · refine ⟨elb.subnets, ?_, hmem _ ?_, ?_⟩
      · simp [set_subnets, hfail, helb, hz, he, hd]
      · intro z
        simp [he, hd]
      · simp [set_subnets, hfail, helb, hz, he, hd]
    · refine ⟨elb.subnets.filter (fun z => decide (z ∉
        (if cfg.purge_subnets then setDiff elb.subnets cfg.subnets else []))),
        ?_, hmem _ ?_, ?_⟩
      · simp [set_subnets, hfail, helb, hz, he, hd]
      · intro z
        cases hp : cfg.purge_subnets <;>
          simp [List.mem_filter, he, hp] <;> tauto
      · simp [set_subnets, hfail, helb, hz, he, hd]
    · refine ⟨elb.subnets ++ setDiff cfg.subnets elb.subnets, ?_, hmem _ ?_, ?_⟩
      · simp [set_subnets, hfail, helb, hz, he, hd]
      · intro z
        simp [List.mem_append, hd]
      · simp [set_subnets, hfail, helb, hz, he, hd]
    · refine ⟨(elb.subnets ++ setDiff cfg.subnets elb.subnets).filter
        (fun z => decide (z ∉
          (if cfg.purge_subnets then setDiff elb.subnets cfg.subnets else []))),
        ?_, hmem _ ?_, ?_⟩
      · simp [set_subnets, hfail, helb, hz, he, hd]
      · intro z
        cases hp : cfg.purge_subnets <;>
          simp [List.mem_filter, List.mem_append, hp] <;> tauto
      · simp [set_subnets, hfail, helb, hz, he, hd]

/-- After the security group step the live groups are converged with the
desired ones, and only the group field changes. -/
theorem set_security_groups_establishes (cfg : ElbConfig) (w : World) (elb : Elb)
    (hfail : w.failure = none) (helb : w.elb = some elb) :
    ∃ gs, (set_security_groups cfg w).elb = some { elb with security_groups := gs } ∧
      sgs_converged cfg gs ∧ (set_security_groups cfg w).failure = none := by
  cases hsg : cfg.security_group_ids with
  | none =>
    refine ⟨elb.security_groups, ?_, ?_, ?_⟩
    · simp [set_security_groups, hfail, helb, hsg]
    · intro sgs hsgs
      rw [hsg] at hsgs
      cases hsgs
    · simp [set_security_groups, hfail, helb, hsg]
  | some sgs =>
    by_cases hs : sameSet elb.security_groups sgs
    · refine ⟨elb.security_groups, ?_, ?_, ?_⟩
      · simp [set_security_groups, hfail, helb, hsg, hs]
      · intro sgs' hsgs'
        rw [hsg] at hsgs'
        cases hsgs'
        exact hs
      · simp [set_security_groups, hfail, helb, hsg, hs]
    · refine ⟨sgs, ?_, ?_, ?_⟩
      · simp [set_security_groups, hfail, helb, hsg, hs]
      · intro sgs' hsgs'
        rw [hsg] at hsgs'
        cases hsgs'
        exact sameSet_refl sgs
      · simp [set_security_groups, hfail, helb, hsg, hs]

/-- After the health check step the live descriptor is converged with the
desired one, and only the health check field changes. -/
theorem set_health_check_establishes (cfg : ElbConfig) (w : World) (elb : Elb)
    (hfail : w.failure = none) (helb : w.elb = some elb) :
    ∃ h, (set_health_check cfg w).elb = some { elb with health_check := h } ∧
      hc_converged cfg h ∧ (set_health_check cfg w).failure = none := by
  cases hhc : cfg.health_check with
  | none =>
    refine ⟨elb.health_check, ?_, ?_, ?_⟩
    · simp [set_health_check, hfail, helb, hhc]
    · intro hc' hhc'
      rw [hhc] at hhc'
      cases hhc'
    · simp [set_health_check, hfail, helb, hhc]
  | some hc =>
    by_cases hupd : health_check_needs_update (elb.health_check.getD {})
        (desired_health_check hc) = true
    · refine ⟨some (desired_health_check hc), ?_, ?_, ?_⟩
      · simp [set_health_check, hfail, helb, hhc, hupd]
      · intro hc' hhc'
        rw [hhc] at hhc'
        cases hhc'
        rfl
      · simp [set_health_check, hfail, helb, hhc, hupd]
    · simp only [Bool.not_eq_true] at hupd
      have heq : elb.health_check.getD {} = desired_health_check hc :=
        health_check_no_update_eq hupd
      refine ⟨some (elb.health_check.getD {}), ?_, ?_, ?_⟩
      · simp [set_health_check, hfail, helb, hhc, hupd]
      · intro hc' hhc'
        rw [hhc] at hhc'
        cases hhc'
        rw [heq]
      · simp [set_health_check, hfail, helb, hhc, hupd]

/-- With pairwise-distinct desired ports the queued additions have pairwise
distinct ports. -/
theorem diff_to_add_pairwise (ds : List Listener) (live : List ApiListener)
    (h : ds.Pairwise (fun a b => a.load_balancer_port ≠ b.load_balancer_port)) :
    (diff_desired_listeners ds live).to_add.Pairwise
      (fun t t' => t.lb_port ≠ t'.lb_port) := by
  induction ds with
  | nil => simp [diff_desired_listeners]
  | cons d tl ih =>
    obtain ⟨hhead, htl⟩ := List.pairwise_cons.mp h
    have hrest := ih htl
    have hcons : ∀ t' ∈ (diff_desired_listeners tl live).to_add,
        (listener_as_tuple d).lb_port ≠ t'.lb_port := by
      intro t' ht'
      obtain ⟨d', hd', hdt⟩ := diff_to_add_tuple ht'
      rw [listener_as_tuple_lb_port, ← hdt, listener_as_tuple_lb_port]
      exact hhead d' hd'
    cases hf : find_existing_by_port live d.load_balancer_port with
    | none =>
      simp only [diff_desired_listeners, hf]
      exact List.pairwise_cons.mpr ⟨hcons, hrest⟩
    | some e =>
      by_cases hne : listener_as_tuple d = api_listener_as_tuple e
      · have hcond : ¬ (listener_as_tuple d ≠ api_listener_as_tuple e) := by simpa using hne
        simp only [diff_desired_listeners, hf, if_neg hcond]
        exact hrest
      · simp only [diff_desired_listeners, hf, if_pos hne]
        exact List.pairwise_cons.mpr ⟨hcons, hrest⟩

/-- The canonical listener list left behind by the listener sync (survivors
of the port-based deletion followed by the created tuples) is converged
with the desired configuration. -/
theorem set_elb_listeners_pure_establishes (cfg : ElbConfig) (L : List ApiListener)
    (hports : cfg.listeners.Pairwise (fun a b => a.load_balancer_port ≠ b.load_balancer_port))
    (hU : UniquePorts L)
    (hssl : ∀ l ∈ cfg.listeners, l.ssl_certificate_id ≠ some "") :
    listeners_converged cfg
      (L.filter (fun l => decide (l.lb_port ∉
        (set_elb_listeners cfg.listeners L cfg.purge_listeners).1.map
          (fun t => t.lb_port))) ++
       (set_elb_listeners cfg.listeners L cfg.purge_listeners).2.map
         tuple_to_api_listener) := by
  have hadd2 : (set_elb_listeners cfg.listeners L cfg.purge_listeners).2 =
      (diff_desired_listeners cfg.listeners L).to_add := by
    simp [set_elb_listeners]
  have hrem_mem : ∀ t, t ∈ (set_elb_listeners cfg.listeners L cfg.purge_listeners).1 ↔
      t ∈ (diff_desired_listeners cfg.listeners L).to_remove ∨
        (cfg.purge_listeners = true ∧ (∃ e ∈ L, api_listener_as_tuple e = t) ∧
          t ∉ (diff_desired_listeners cfg.listeners L).to_keep) := by
    intro t
    cases hp : cfg.purge_listeners with
    | false => simp [set_elb_listeners, hp]
    | true =>
      simp only [set_elb_listeners, hp, if_pos, ite_true, purge_extraneous_mem, true_and]
  have hremsub : ∀ t ∈ (set_elb_listeners cfg.listeners L cfg.purge_listeners).1,
      ∃ e ∈ L, api_listener_as_tuple e = t := by
    intro t ht
    rcases (hrem_mem t).mp ht with h | ⟨_, h, _⟩
    · obtain ⟨d, _, e, hfind, h1, _⟩ := (diff_to_remove_mem _ _ _).mp h
      exact ⟨e, (find_existing_mem hfind).1, h1⟩
    · exact h
  have hssl' : ∀ d ∈ cfg.listeners,
      (listener_as_tuple d).ssl_certificate_id ≠ some "" := fun d hd => hssl d hd
  have hka : ∀ d ∈ cfg.listeners,
      listener_as_tuple d ∈ (diff_desired_listeners cfg.listeners L).to_add ∨
      ∃ e ∈ L, e.lb_port = d.load_balancer_port ∧
        api_listener_as_tuple e = listener_as_tuple d ∧
        api_listener_as_tuple e ∈ (diff_desired_listeners cfg.listeners L).to_keep := by
    intro d hd
    cases hf : find_existing_by_port L d.load_balancer_port with
    | none =>
      exact Or.inl ((diff_to_add_mem _ _ _).mpr
        ⟨d, hd, rfl, fun e he => by rw [hf] at he; cases he⟩)
    | some e =>
      by_cases heq : api_listener_as_tuple e = listener_as_tuple d
      · obtain ⟨hel, hep⟩ := find_existing_mem hf
        exact Or.inr ⟨e, hel, hep, heq,
          (diff_to_keep_mem _ _ _).mpr ⟨d, hd, e, hf, rfl, heq.symm⟩⟩
      · exact Or.inl ((diff_to_add_mem _ _ _).mpr
          ⟨d, hd, rfl, fun e' he' => by rw [hf] at he'; cases he'; exact heq⟩)
  have hkeepsurv : ∀ d ∈ cfg.listeners, ∀ e ∈ L, e.lb_port = d.load_balancer_port →
      api_listener_as_tuple e = listener_as_tuple d →
      e.lb_port ∉ (set_elb_listeners cfg.listeners L cfg.purge_listeners).1.map
        (fun t => t.lb_port) := by
    intro d hd e hel hep heq hmem
    obtain ⟨r, hr, hrp⟩ := List.mem_map.mp hmem
    obtain ⟨e', hel', he'r⟩ := hremsub r hr
    have hport : e'.lb_port = e.lb_port := by
      have h1 := congrArg ListenerTuple.lb_port he'r
      rw [api_listener_as_tuple_lb_port] at h1
      rw [h1, hrp]
    have hee : e' = e := live_unique hU hel' hel hport
    have hr_eq : r = listener_as_tuple d := by
      rw [← he'r, hee, heq]
    rw [hr_eq, hrem_mem] at hr
    rcases hr with hr | ⟨_, _, hnk⟩
    · rw [diff_to_remove_iff_partner hU] at hr
      obtain ⟨e'', he'', hapi, d', hd', hdp, hne⟩ := hr
      have he''p : e''.lb_port = d.load_balancer_port := by
        have h2 := congrArg ListenerTuple.lb_port hapi
        rw [api_listener_as_tuple_lb_port, listener_as_tuple_lb_port] at h2
        exact h2
      have : d' = d := desired_unique hports hd' hd (by rw [hdp, he''p])
      exact hne (by rw [this])
    · exact hnk ((diff_to_keep_mem _ _ _).mpr
        ⟨d, hd, e, find_existing_unique hU hel hep, heq, rfl⟩)
  have haddport : ∀ t ∈ (set_elb_listeners cfg.listeners L cfg.purge_listeners).2,
      ∀ e ∈ L, e.lb_port ∉ (set_elb_listeners cfg.listeners L cfg.purge_listeners).1.map
        (fun t => t.lb_port) → e.lb_port ≠ t.lb_port := by
    intro t ht e hel hnp
    rw [hadd2] at ht
    obtain ⟨d, hd, hdt, hcond⟩ := (diff_to_add_mem _ _ _).mp ht
    have htp : t.lb_port = d.load_balancer_port := by
      rw [← hdt, listener_as_tuple_lb_port]
    cases hf : find_existing_by_port L d.load_balancer_port with
    | none =>
      have := List.find?_eq_none.mp hf e hel
      intro hc
      rw [htp] at hc
      simp [hc] at this
    | some e' =>
      have hne' : api_listener_as_tuple e' ≠ listener_as_tuple d := hcond e' hf
      have hrm : api_listener_as_tuple e' ∈
          (diff_desired_listeners cfg.listeners L).to_remove :=
        (diff_to_remove_mem _ _ _).mpr ⟨d, hd, e', hf, rfl, fun hc => hne' hc.symm⟩
      have hin : api_listener_as_tuple e' ∈
          (set_elb_listeners cfg.listeners L cfg.purge_listeners).1 :=
        (hrem_mem _).mpr (Or.inl hrm)
      have hport' : e'.lb_port ∈
          (set_elb_listeners cfg.listeners L cfg.purge_listeners).1.map
            (fun t => t.lb_port) :=
        List.mem_map.mpr ⟨api_listener_as_tuple e', hin, api_listener_as_tuple_lb_port e'⟩
      intro hc
      rw [htp] at hc
      rw [← (find_existing_mem hf).2] at hc
      rw [hc] at hnp
      exact hnp hport'
  refine ⟨?_, ?_, ?_⟩
  · intro d hd
    rcases hka d hd with h | ⟨e, hel, hep, heq, _⟩
    · refine ⟨tuple_to_api_listener (listener_as_tuple d), ?_, ?_⟩
      · refine List.mem_append.mpr (Or.inr (List.mem_map.mpr ⟨listener_as_tuple d, ?_, rfl⟩))
        rw [hadd2]
        exact h
      · exact api_round_trip _ (hssl' d hd)
    · refine ⟨e, ?_, heq⟩
      refine List.mem_append.mpr (Or.inl (List.mem_filter.mpr ⟨hel, ?_⟩))
      simpa using hkeepsurv d hd e hel hep heq
  · intro hp e' he'
    rcases List.mem_append.mp he' with h | h
    · obtain ⟨helL, hdec⟩ := List.mem_filter.mp h
      by_cases hk : api_listener_as_tuple e' ∈
          (diff_desired_listeners cfg.listeners L).to_keep
      · obtain ⟨d, hd, e'', _, _, htd⟩ := (diff_to_keep_mem _ _ _).mp hk
        exact ⟨d, hd, htd.symm⟩
      · exfalso
        have hin : api_listener_as_tuple e' ∈
            (set_elb_listeners cfg.listeners L cfg.purge_listeners).1 :=
          (hrem_mem _).mpr (Or.inr ⟨hp, ⟨e', helL, rfl⟩, hk⟩)
        have : e'.lb_port ∈
            (set_elb_listeners cfg.listeners L cfg.purge_listeners).1.map
              (fun t => t.lb_port) :=
          List.mem_map.mpr ⟨api_listener_as_tuple e', hin, api_listener_as_tuple_lb_port e'⟩
        simp only [decide_eq_true_eq] at hdec
        exact hdec this
    · obtain ⟨t, ht, hte⟩ := List.mem_map.mp h
      have ht2 := ht
      rw [hadd2] at ht2
      obtain ⟨d, hd, hdt⟩ := diff_to_add_tuple ht2
      refine ⟨d, hd, ?_⟩
      rw [← hte, api_round_trip t (by rw [← hdt]; exact hssl' d hd), hdt]
  · refine List.pairwise_append.mpr ⟨?_, ?_, ?_⟩
    · exact List.Pairwise.sublist (List.filter_sublist _) hU
    · rw [List.pairwise_map]
      rw [hadd2]
      exact diff_to_add_pairwise cfg.listeners L hports
    · intro e' he' a ha
      obtain ⟨helL, hdec⟩ := List.mem_filter.mp he'
      obtain ⟨t, ht, hta⟩ := List.mem_map.mp ha
      simp only [decide_eq_true_eq] at hdec
      have := haddport t ht e' helL hdec
      rw [← hta]
      exact this

/-- After the listener step the live listeners are converged with the
desired configuration, and only the listener field changes. -/
theorem set_elb_listeners_step_establishes (cfg : ElbConfig) (w : World) (elb : Elb)
    (hfail : w.failure = none) (helb : w.elb = some elb)
    (hports : cfg.listeners.Pairwise (fun a b => a.load_balancer_port ≠ b.load_balancer_port))
    (hU : UniquePorts elb.listeners)
    (hssl : ∀ l ∈ cfg.listeners, l.ssl_certificate_id ≠ some "") :
    ∃ ls, (set_elb_listeners_step cfg w).elb = some { elb with listeners := ls } ∧
      listeners_converged cfg ls ∧ (set_elb_listeners_step cfg w).failure = none := by
  have hconv := set_elb_listeners_pure_establishes cfg elb.listeners hports hU hssl
  by_cases hrem : (set_elb_listeners cfg.listeners elb.listeners cfg.purge_listeners).1 = [] <;>
    by_cases hadd : (set_elb_listeners cfg.listeners elb.listeners cfg.purge_listeners).2 = []
  · refine ⟨_, ?_, hconv, ?_⟩
    · rw [hrem, hadd]
      simp only [List.map_nil, List.append_nil]
      rw [List.filter_eq_self.mpr (by simp)]
      simp [set_elb_listeners_step, hfail, helb, hrem, hadd]
    · simp [set_elb_listeners_step, hfail, helb, hrem, hadd]
  · refine ⟨_, ?_, hconv, ?_⟩
    · rw [hrem]
      simp only [List.map_nil]
      rw [List.filter_eq_self.mpr (by simp)]
      simp [set_elb_listeners_step, hfail, helb, hrem, hadd]
    · simp [set_elb_listeners_step, hfail, helb, hrem, hadd]
  · refine ⟨_, ?_, hconv, ?_⟩
    · rw [hadd]
      simp only [List.map_nil, List.append_nil]
      simp [set_elb_listeners_step, hfail, helb, hrem, hadd]
    · simp [set_elb_listeners_step, hfail, helb, hrem, hadd]
  · refine ⟨_, ?_, hconv, ?_⟩
    · simp [set_elb_listeners_step, hfail, helb, hrem, hadd]
    · simp [set_elb_listeners_step, hfail, helb, hrem, hadd]

/-- The draining step rewrites only the draining attribute and never the
changed flag. -/
theorem set_connection_draining_establishes (cfg : ElbConfig) (w : World) (elb : Elb)
    (hfail : w.failure = none) (helb : w.elb = some elb) :
    (set_connection_draining_timeout cfg w).elb =
      some { elb with connection_draining_timeout := cfg.connection_draining_timeout } ∧
    (set_connection_draining_timeout cfg w).failure = none ∧
    (set_connection_draining_timeout cfg w).changed = w.changed := by
  cases hcd : cfg.connection_draining_timeout <;>
    simp [set_connection_draining_timeout, hfail, helb, hcd]

/-- The cross zone step rewrites only the cross zone attribute and never
the changed flag. -/
theorem set_cross_az_establishes (cfg : ElbConfig) (w : World) (elb : Elb)
    (hfail : w.failure = none) (helb : w.elb = some elb) :
    (set_cross_az_load_balancing cfg w).elb =
      some { elb with cross_zone_enabled := cfg.cross_az_load_balancing } ∧
    (set_cross_az_load_balancing cfg w).failure = none ∧
    (set_cross_az_load_balancing cfg w).changed = w.changed := by
  simp [set_cross_az_load_balancing, hfail, helb]

/-- Scanning for a name in a list filtered to exclude that name finds
nothing (loadbalancer policies). -/
theorem find?_lb_filter (l : List LbCookiePolicy) (nm : String) :
    (l.filter (fun q => decide (q.policy_name ≠ nm))).find?
      (fun q => q.policy_name == nm) = none := by
  rw [List.find?_eq_none]
  intro q hq
  have h := (List.mem_filter.mp hq).2
  simp only [decide_eq_true_eq] at h
  simp [h]

/-- Scanning for a name in a list filtered to exclude that name finds
nothing (application policies). -/
theorem find?_app_filter (l : List AppCookiePolicy) (nm : String) :
    (l.filter (fun q => decide (q.policy_name ≠ nm))).find?
      (fun q => q.policy_name == nm) = none := by
  rw [List.find?_eq_none]
  intro q hq
  have h := (List.mem_filter.mp hq).2
  simp only [decide_eq_true_eq] at h
  simp [h]

/-- After a non-failing stickiness step the live policy lists are converged
with the desired configuration, and only the policy fields change. -/
theorem select_stickiness_establishes (cfg : ElbConfig) (w : World) (elb : Elb)
    (hfail : w.failure = none) (helb : w.elb = some elb)
    (hout : (select_stickiness_policy cfg w).failure = none) :
    ∃ lbp app, (select_stickiness_policy cfg w).elb =
        some { elb with lb_cookie_stickiness_policies := lbp,
                        app_cookie_stickiness_policies := app } ∧
      stickiness_converged cfg lbp app := by
  cases hst : cfg.stickiness with
  | none =>
    refine ⟨elb.lb_cookie_stickiness_policies, elb.app_cookie_stickiness_policies, ?_, ?_⟩
    · simp [select_stickiness_policy, hfail, helb, hst]
    · intro st hstc
      rw [hst] at hstc
      cases hstc
  | some st =>
    by_cases hboth : st.cookie.isSome ∧ st.expiration.isSome
    · exfalso
      rw [select_stickiness_both_keys cfg w st hfail (by simp [helb]) hst
        hboth.1 hboth.2] at hout
      simp at hout
    · by_cases hty : st.stype = "loadbalancer"
      · cases hen : st.enabled with
        | false =>
          refine ⟨elb.lb_cookie_stickiness_policies.filter
            (fun q => decide (q.policy_name ≠ policy_name "LBCookieStickinessPolicyType")),
            elb.app_cookie_stickiness_policies, ?_, ?_⟩
          · simp [select_stickiness_policy, hfail, helb, hst, hboth, hty, hen,
              set_listener_policy]
          · intro st' hst'
            rw [hst] at hst'
            cases hst'
            constructor
            · intro _
              constructor
              · intro htrue
                rw [hen] at htrue
                exact absurd htrue (by decide)
              · intro _ p hp
                have h := (List.mem_filter.mp hp).2
                simpa using h
            · intro happ
              rw [hty] at happ
              exact absurd happ (by decide)
        | true =>
          cases hexp : st.expiration with
          | none =>
            exfalso
            simp [select_stickiness_policy, hfail, helb, hst, hboth, hty, hen,
              hexp] at hout
          | some exp =>
            have hckf : st.cookie.isSome = false := by
              cases hc : st.cookie.isSome
              · rfl
              · exact absurd ⟨hc, by simp [hexp]⟩ hboth
            cases hfind : elb.lb_cookie_stickiness_policies.find?
                (fun p => p.policy_name == policy_name "LBCookieStickinessPolicyType") with
            | some p =>
              by_cases hne : p.cookie_expiration_period ≠ exp
              · refine ⟨(elb.lb_cookie_stickiness_policies.filter
                  (fun q => decide (q.policy_name ≠
                    policy_name "LBCookieStickinessPolicyType"))) ++
                  [{ policy_name := policy_name "LBCookieStickinessPolicyType",
                     cookie_expiration_period := exp }],
                  elb.app_cookie_stickiness_policies, ?_, ?_⟩
                · simp [select_stickiness_policy, hfail, helb, hst, hboth, hckf, hty, hen,
                    hexp, hfind, hne, set_listener_policy]
                · intro st' hst'
                  rw [hst] at hst'
                  cases hst'
                  constructor
                  · intro _
                    constructor
                    · intro _ exp' hexp'
                      rw [hexp] at hexp'
                      cases hexp'
                      refine ⟨{ policy_name := policy_name "LBCookieStickinessPolicyType", cookie_expiration_period := exp }, ?_, rfl⟩
                      rw [find?_append_of_none (find?_lb_filter _ _)]
                      simp
                    · intro hfalse
                      rw [hen] at hfalse
                      exact absurd hfalse (by decide)
                  · intro happ
                    rw [hty] at happ
                    exact absurd happ (by decide)
              · refine ⟨elb.lb_cookie_stickiness_policies,
                  elb.app_cookie_stickiness_policies, ?_, ?_⟩
                · simp [select_stickiness_policy, hfail, helb, hst, hboth, hckf, hty, hen,
                    hexp, hfind, hne, set_listener_policy]
                · intro st' hst'
                  rw [hst] at hst'
                  cases hst'
                  constructor
                  · intro _
                    constructor
                    · intro _ exp' hexp'
                      rw [hexp] at hexp'
                      cases hexp'
                      simp only [not_not] at hne
                      exact ⟨p, hfind, hne⟩
                    · intro hfalse
                      rw [hen] at hfalse
                      exact absurd hfalse (by decide)
                  · intro happ
                    rw [hty] at happ
                    exact absurd happ (by decide)
            | none =>
              refine ⟨elb.lb_cookie_stickiness_policies ++
                  [{ policy_name := policy_name "LBCookieStickinessPolicyType",
                     cookie_expiration_period := exp }],
                elb.app_cookie_stickiness_policies, ?_, ?_⟩
              · simp [select_stickiness_policy, hfail, helb, hst, hboth, hckf, hty, hen,
                  hexp, hfind, set_listener_policy]
              · intro st' hst'
                rw [hst] at hst'
                cases hst'
                constructor
                · intro _
                  constructor
                  · intro _ exp' hexp'
                    rw [hexp] at hexp'
                    cases hexp'
                    refine ⟨{ policy_name := policy_name "LBCookieStickinessPolicyType", cookie_expiration_period := exp }, ?_, rfl⟩
                    rw [find?_append_of_none hfind]
                    simp
                  · intro hfalse
                    rw [hen] at hfalse
                    exact absurd hfalse (by decide)
                · intro happ
                  rw [hty] at happ
                  exact absurd happ (by decide)
      · by_cases hty2 : st.stype = "application"
        · cases hen : st.enabled with
          | false =>
            refine ⟨elb.lb_cookie_stickiness_policies,
              elb.app_cookie_stickiness_policies.filter
                (fun q => decide (q.policy_name ≠
                  policy_name "AppCookieStickinessPolicyType")), ?_, ?_⟩
            · simp [select_stickiness_policy, hfail, helb, hst, hboth, hty, hty2, hen,
                set_listener_policy]
            · intro st' hst'
              rw [hst] at hst'
              cases hst'
              constructor
              · intro hlb
                exact absurd hlb hty
              · intro _
                constructor
                · intro htrue
                  rw [hen] at htrue
                  exact absurd htrue (by decide)
                · intro _ p hp
                  have h := (List.mem_filter.mp hp).2
                  simpa using h
          | true =>
            cases hck : st.cookie with
            | none =>
              exfalso
              simp [select_stickiness_policy, hfail, helb, hst, hboth, hty, hty2, hen,
                hck] at hout
            | some ck =>
              have hexf : st.expiration.isSome = false := by
                cases hc : st.expiration.isSome
                · rfl
                · exact absurd ⟨by simp [hck], hc⟩ hboth
              cases hfind : elb.app_cookie_stickiness_policies.find?
                  (fun p => p.policy_name == policy_name "AppCookieStickinessPolicyType") with
              | some p =>
                by_cases hne : p.cookie_name ≠ ck
                · refine ⟨elb.lb_cookie_stickiness_policies,
                    (elb.app_cookie_stickiness_policies.filter
                      (fun q => decide (q.policy_name ≠
                        policy_name "AppCookieStickinessPolicyType"))) ++
                    [{ policy_name := policy_name "AppCookieStickinessPolicyType",
                       cookie_name := ck }], ?_, ?_⟩
                  · simp [select_stickiness_policy, hfail, helb, hst, hboth, hexf, hty, hty2,
                      hen, hck, hfind, hne, set_listener_policy]
                  · intro st' hst'
                    rw [hst] at hst'
                    cases hst'
                    constructor
                    · intro hlb
                      exact absurd hlb hty
                    · intro _
                      constructor
                      · intro _ ck' hck'
                        rw [hck] at hck'
                        cases hck'
                        refine ⟨{ policy_name := policy_name "AppCookieStickinessPolicyType", cookie_name := ck }, ?_, rfl⟩
                        rw [find?_append_of_none (find?_app_filter _ _)]
                        simp
                      · intro hfalse
                        rw [hen] at hfalse
                        exact absurd hfalse (by decide)
                · refine ⟨elb.lb_cookie_stickiness_policies,
                    elb.app_cookie_stickiness_policies, ?_, ?_⟩
                  · simp [select_stickiness_policy, hfail, helb, hst, hboth, hexf, hty, hty2,
                      hen, hck, hfind, hne, set_listener_policy]
                  · intro st' hst'
                    rw [hst] at hst'
                    cases hst'
                    constructor
                    · intro hlb
                      exact absurd hlb hty
                    · intro _
                      constructor
                      · intro _ ck' hck'
                        rw [hck] at hck'
                        cases hck'
                        simp only [not_not] at hne
                        exact ⟨p, hfind, hne⟩
                      · intro hfalse
                        rw [hen] at hfalse
                        exact absurd hfalse (by decide)
              | none =>
                refine ⟨elb.lb_cookie_stickiness_policies,
                  elb.app_cookie_stickiness_policies ++
                    [{ policy_name := policy_name "AppCookieStickinessPolicyType",
                       cookie_name := ck }], ?_, ?_⟩
                · simp [select_stickiness_policy, hfail, helb, hst, hboth, hexf, hty, hty2,
                    hen, hck, hfind, set_listener_policy]
                · intro st' hst'
                  rw [hst] at hst'
                  cases hst'
                  constructor
                  · intro hlb
                    exact absurd hlb hty
                  · intro _
                    constructor
                    · intro _ ck' hck'
                      rw [hck] at hck'
                      cases hck'
                      refine ⟨{ policy_name := policy_name "AppCookieStickinessPolicyType", cookie_name := ck }, ?_, rfl⟩
                      rw [find?_append_of_none hfind]
                      simp
                    · intro hfalse
                      rw [hen] at hfalse
                      exact absurd hfalse (by decide)
        · refine ⟨elb.lb_cookie_stickiness_policies,
            elb.app_cookie_stickiness_policies, ?_, ?_⟩
          · simp [select_stickiness_policy, hfail, helb, hst, hboth, hty, hty2,
              set_listener_policy]
          · intro st' hst'
            rw [hst] at hst'
            cases hst'
            constructor
            · intro hlb
              exact absurd hlb hty
            · intro happ
              exact absurd happ hty2

/-- A set difference against a superset is empty. -/
theorem setDiff_eq_nil_of_subset {a b : List String} (h : ∀ z ∈ a, z ∈ b) :
    setDiff a b = [] := by
  simp only [setDiff, List.dedup_eq_nil, List.filter_eq_nil]
  intro z hz
  simp [h z hz]

/-- A converged zone list makes the zone step a strict no-op. -/
theorem set_zones_noop (cfg : ElbConfig) (w : World) (elb : Elb)
    (hfail : w.failure = none) (helb : w.elb = some elb)
    (hconv : zones_converged cfg elb.availability_zones) : set_zones cfg w = w := by
  by_cases hz : cfg.zones = []
  · simp [set_zones, hfail, helb, hz]
  · obtain ⟨h1, h2⟩ := hconv hz
    have he : setDiff cfg.zones elb.availability_zones = [] := setDiff_eq_nil_of_subset h1
    have hd : (if cfg.purge_zones then setDiff elb.availability_zones cfg.zones else []) =
        [] := by
      cases hp : cfg.purge_zones
      · simp
      · simpa using setDiff_eq_nil_of_subset (h2 hp)
    simp [set_zones, hfail, helb, hz, he, hd]

/-- A converged subnet list makes the subnet step a strict no-op. -/
theorem set_subnets_noop (cfg : ElbConfig) (w : World) (elb : Elb)
    (hfail : w.failure = none) (helb : w.elb = some elb)
    (hconv : subnets_converged cfg elb.subnets) : set_subnets cfg w = w := by
  by_cases hz : cfg.subnets = []
  · simp [set_subnets, hfail, helb, hz]
  · obtain ⟨h1, h2⟩ := hconv hz
    have he : setDiff cfg.subnets elb.subnets = [] := setDiff_eq_nil_of_subset h1
    have hd : (if cfg.purge_subnets then setDiff elb.subnets cfg.subnets else []) = [] := by
      cases hp : cfg.purge_subnets
      · simp
      · simpa using setDiff_eq_nil_of_subset (h2 hp)
    simp [set_subnets, hfail, helb, hz, he, hd]

/-- Converged security groups make the security group step a strict
no-op. -/
theorem set_security_groups_noop (cfg : ElbConfig) (w : World) (elb : Elb)
    (hfail : w.failure = none) (helb : w.elb = some elb)
    (hconv : sgs_converged cfg elb.security_groups) : set_security_groups cfg w = w := by
  cases hsg : cfg.security_group_ids with
  | none => simp [set_security_groups, hfail, helb, hsg]
  | some sgs => simp [set_security_groups, hfail, helb, hsg, hconv sgs hsg]

/-- Converged listeners make the listener step a strict no-op. -/
theorem set_elb_listeners_noop (cfg : ElbConfig) (w : World) (elb : Elb)
    (hfail : w.failure = none) (helb : w.elb = some elb)
    (hconv : listeners_converged cfg elb.listeners) : set_elb_listeners_step cfg w = w := by
  obtain ⟨hall, hpurge, hU⟩ := hconv
  have haddnil : (diff_desired_listeners cfg.listeners elb.listeners).to_add = [] := by
    rw [List.eq_nil_iff_forall_not_mem]
    intro t ht
    obtain ⟨d, hd, hdt, hcond⟩ := (diff_to_add_mem _ _ _).mp ht
    obtain ⟨e, he, heq⟩ := hall d hd
    have hport : e.lb_port = d.load_balancer_port := by
      have h1 := congrArg ListenerTuple.lb_port heq
      rw [api_listener_as_tuple_lb_port, listener_as_tuple_lb_port] at h1
      exact h1
    exact hcond e (find_existing_unique hU he hport) heq
  have hremnil0 : (diff_desired_listeners cfg.listeners elb.listeners).to_remove = [] := by
    rw [List.eq_nil_iff_forall_not_mem]
    intro t ht
    rw [diff_to_remove_iff_partner hU] at ht
    obtain ⟨e, he, heq, d, hd, hdp, hne⟩ := ht
    obtain ⟨e', he', heq'⟩ := hall d hd
    have hport' : e'.lb_port = d.load_balancer_port := by
      have h1 := congrArg ListenerTuple.lb_port heq'
      rw [api_listener_as_tuple_lb_port, listener_as_tuple_lb_port] at h1
      exact h1
    have hee : e' = e := live_unique hU he' he (by rw [hport', hdp])
    apply hne
    rw [← heq', hee, heq]
  have hremnil : (set_elb_listeners cfg.listeners elb.listeners cfg.purge_listeners).1 =
      [] := by
    cases hp : cfg.purge_listeners
    · simp [set_elb_listeners, hp, hremnil0]
    · simp only [set_elb_listeners, hp, ite_true, if_pos]
      rw [List.eq_nil_iff_forall_not_mem]
      intro t ht
      rw [purge_extraneous_mem] at ht
      rcases ht with ht | ⟨⟨e, he, heq⟩, hnk⟩
      · rw [hremnil0] at ht
        cases ht
      · obtain ⟨d, hd, hdt⟩ := hpurge hp e he
        apply hnk
        refine (diff_to_keep_mem _ _ _).mpr ⟨d, hd, e, ?_, heq, ?_⟩
        · refine find_existing_unique hU he ?_
          have h1 := congrArg ListenerTuple.lb_port hdt
          rw [api_listener_as_tuple_lb_port, listener_as_tuple_lb_port] at h1
          exact h1
        · rw [← hdt, heq]
  have haddnil' : (set_elb_listeners cfg.listeners elb.listeners cfg.purge_listeners).2 =
      [] := by
    simp [set_elb_listeners, haddnil]
  simp [set_elb_listeners_step, hfail, helb, hremnil, haddnil']

/-- A converged health check makes the health step a strict no-op. -/
theorem set_health_check_noop (cfg : ElbConfig) (w : World) (elb : Elb)
    (hfail : w.failure = none) (helb : w.elb = some elb)
    (hconv : hc_converged cfg elb.health_check) : set_health_check cfg w = w := by
  cases hhc : cfg.health_check with
  | none => simp [set_health_check, hfail, helb, hhc]
  | some hc =>
    have heq : elb.health_check = some (desired_health_check hc) := hconv hc hhc
    have hcur : elb.health_check.getD {} = desired_health_check hc := by
      rw [heq]
      rfl
    have hupd : health_check_needs_update (elb.health_check.getD {})
        (desired_health_check hc) = false := by
      rw [hcur]
      simp [health_check_needs_update]
    have hstep : set_health_check cfg w =
        { w with elb := some { elb with health_check := some (elb.health_check.getD {}) } } := by
      simp [set_health_check, hfail, helb, hhc, hupd]
    rw [hstep, hcur, ← heq]
    have h2 : ({ elb with health_check := elb.health_check } : Elb) = elb := rfl
    rw [h2, ← helb]

/-- With converged stickiness policies and a changed flag that is already
false, the stickiness step leaves the flag false. -/
theorem select_stickiness_keeps_false (cfg : ElbConfig) (w : World) (elb : Elb)
    (hch : w.changed = false) (hfail : w.failure = none) (helb : w.elb = some elb)
    (hconv : stickiness_converged cfg elb.lb_cookie_stickiness_policies
      elb.app_cookie_stickiness_policies) :
    (select_stickiness_policy cfg w).changed = false := by
  cases hst : cfg.stickiness with
  | none => simp [select_stickiness_policy, hfail, helb, hst, hch]
  | some st =>
    have hc := hconv st hst
    by_cases hboth : st.cookie.isSome ∧ st.expiration.isSome
    · simp [select_stickiness_policy, hfail, helb, hst, hboth, hch]
    · by_cases hty : st.stype = "loadbalancer"
      · cases hen : st.enabled with
        | true =>
          cases hexp : st.expiration with
          | none =>
            simp [select_stickiness_policy, hfail, helb, hst, hboth, hty, hen, hexp, hch]
          | some exp =>
            have hckf : st.cookie.isSome = false := by
              cases hcs : st.cookie.isSome
              · rfl
              · exact absurd ⟨hcs, by simp [hexp]⟩ hboth
            obtain ⟨p, hfind, hpe⟩ := (hc.1 hty).1 hen exp hexp
            have hne : ¬(p.cookie_expiration_period ≠ exp) := by simp [hpe]
            simp [select_stickiness_policy, hfail, helb, hst, hboth, hckf, hty, hen,
              hexp, hfind, hne, set_listener_policy, hch]
        | false =>
          have hnames := (hc.1 hty).2 hen
          cases hpol : elb.lb_cookie_stickiness_policies with
          | nil =>
            simp [select_stickiness_policy, hfail, helb, hst, hboth, hty, hen, hpol,
              set_listener_policy]
          | cons p rest =>
            have hpn : p.policy_name ≠ policy_name "LBCookieStickinessPolicyType" :=
              hnames p (by rw [hpol]; exact List.mem_cons_self p rest)
            simp [select_stickiness_policy, hfail, helb, hst, hboth, hty, hen, hpol,
              hpn, set_listener_policy, hch]
      · by_cases hty2 : st.stype = "application"
        · cases hen : st.enabled with
          | true =>
            cases hck : st.cookie with
            | none =>
              simp [select_stickiness_policy, hfail, helb, hst, hboth, hty, hty2, hen,
                hck, hch]
            | some ck =>
              have hexf : st.expiration.isSome = false := by
                cases hcs : st.expiration.isSome
                · rfl
                · exact absurd ⟨by simp [hck], hcs⟩ hboth
              obtain ⟨p, hfind, hpe⟩ := (hc.2 hty2).1 hen ck hck
              have hne : ¬(p.cookie_name ≠ ck) := by simp [hpe]
              simp [select_stickiness_policy, hfail, helb, hst, hboth, hexf, hty, hty2,
                hen, hck, hfind, hne, set_listener_policy, hch]
          | false =>
            have hnames := (hc.2 hty2).2 hen
            cases hpol : elb.app_cookie_stickiness_policies with
            | nil =>
              simp [select_stickiness_policy, hfail, helb, hst, hboth, hty, hty2, hen,
                hpol, set_listener_policy, hch]
            | cons p rest =>
              have hpn : p.policy_name ≠ policy_name "AppCookieStickinessPolicyType" :=
                hnames p (by rw [hpol]; exact List.mem_cons_self p rest)
              simp [select_stickiness_policy, hfail, helb, hst, hboth, hty, hty2, hen,
                hpol, hpn, set_listener_policy, hch]
        · simp [select_stickiness_policy, hfail, helb, hst, hboth, hty, hty2,
            set_listener_policy, hch]

/-- A non-failing run of ensure_ok leaves the live resource converged with
the desired configuration. -/
theorem ensure_ok_establishes_converged (cfg : ElbConfig) (elb0 : Option Elb)
    (hports : cfg.listeners.Pairwise (fun a b => a.load_balancer_port ≠ b.load_balancer_port))
    (hlive : ∀ e, elb0 = some e → UniquePorts e.listeners)
    (hssl : ∀ l ∈ cfg.listeners, l.ssl_certificate_id ≠ some "")
    (hfail : (ensure_ok cfg (init_world elb0)).failure = none) :
    ∃ e1, (ensure_ok cfg (init_world elb0)).elb = some e1 ∧ converged cfg e1 := by
  have tail : ∀ (wa : World) (ea : Elb), wa.failure = none → wa.elb = some ea →
      zones_converged cfg ea.availability_zones →
      sgs_converged cfg ea.security_groups →
      listeners_converged cfg ea.listeners →
      subnets_converged cfg ea.subnets →
      (select_stickiness_policy cfg
        (if cfg.supports_cross_zone then
          set_cross_az_load_balancing cfg
            (if cfg.supports_connection_draining then
              set_connection_draining_timeout cfg (set_health_check cfg wa)
            else set_health_check cfg wa)
        else
          if cfg.supports_connection_draining then
            set_connection_draining_timeout cfg (set_health_check cfg wa)
          else set_health_check cfg wa)).failure = none →
      ∃ e1, (select_stickiness_policy cfg
        (if cfg.supports_cross_zone then
          set_cross_az_load_balancing cfg
            (if cfg.supports_connection_draining then
              set_connection_draining_timeout cfg (set_health_check cfg wa)
            else set_health_check cfg wa)
        else
          if cfg.supports_connection_draining then
            set_connection_draining_timeout cfg (set_health_check cfg wa)
          else set_health_check cfg wa)).elb = some e1 ∧ converged cfg e1 := by
    intro wa ea hfa hea hz hg hl hs hout
    obtain ⟨h5, hb_elb, hb_conv, hb_fail⟩ := set_health_check_establishes cfg wa ea hfa hea
    cases hd1 : cfg.supports_connection_draining with
    | false =>
      cases hd2 : cfg.supports_cross_zone with
      | false =>
        simp only [hd1, hd2, Bool.false_eq_true, if_false, ite_false] at hout ⊢
        obtain ⟨lbp, app, hsel, hstick⟩ := select_stickiness_establishes cfg
          (set_health_check cfg wa) { ea with health_check := h5 } hb_fail hb_elb hout
        exact ⟨_, hsel, hz, hg, hl, hs, hb_conv, hstick⟩
      | true =>
        simp only [hd1, hd2, Bool.false_eq_true, if_false, ite_false, ite_true] at hout ⊢
        obtain ⟨hc_elb, hc_fail, _⟩ := set_cross_az_establishes cfg
          (set_health_check cfg wa) { ea with health_check := h5 } hb_fail hb_elb
        obtain ⟨lbp, app, hsel, hstick⟩ := select_stickiness_establishes cfg
          (set_cross_az_load_balancing cfg (set_health_check cfg wa))
          { { ea with health_check := h5 } with
            cross_zone_enabled := cfg.cross_az_load_balancing } hc_fail hc_elb hout
        exact ⟨_, hsel, hz, hg, hl, hs, hb_conv, hstick⟩
    | true =>
      obtain ⟨hc_elb, hc_fail, _⟩ := set_connection_draining_establishes cfg
        (set_health_check cfg wa) { ea with health_check := h5 } hb_fail hb_elb
      cases hd2 : cfg.supports_cross_zone with
      | false =>
        simp only [hd1, hd2, Bool.false_eq_true, if_false, ite_false, ite_true] at hout ⊢
        obtain ⟨lbp, app, hsel, hstick⟩ := select_stickiness_establishes cfg
          (set_connection_draining_timeout cfg (set_health_check cfg wa))
          { { ea with health_check := h5 } with
            connection_draining_timeout := cfg.connection_draining_timeout }
          hc_fail hc_elb hout
        exact ⟨_, hsel, hz, hg, hl, hs, hb_conv, hstick⟩
      | true =>
        simp only [hd1, hd2, ite_true] at hout ⊢
        obtain ⟨hd_elb, hd_fail, _⟩ := set_cross_az_establishes cfg
          (set_connection_draining_timeout cfg (set_health_check cfg wa))
          { { ea with health_check := h5 } with
            connection_draining_timeout := cfg.connection_draining_timeout }
          hc_fail hc_elb
        obtain ⟨lbp, app, hsel, hstick⟩ := select_stickiness_establishes cfg
          (set_cross_az_load_balancing cfg
            (set_connection_draining_timeout cfg (set_health_check cfg wa)))
          { { { ea with health_check := h5 } with
              connection_draining_timeout := cfg.connection_draining_timeout } with
            cross_zone_enabled := cfg.cross_az_load_balancing } hd_fail hd_elb hout
        exact ⟨_, hsel, hz, hg, hl, hs, hb_conv, hstick⟩
  cases elb0 with
  | none =>
    refine tail (create_elb cfg (init_world none))
      { availability_zones := cfg.zones,
        security_groups := cfg.security_group_ids.getD [],
        listeners := cfg.listeners.map (fun l => tuple_to_api_listener (listener_as_tuple l)),
        subnets := cfg.subnets,
        health_check := none,
        connection_draining_timeout := none,
        cross_zone_enabled := false,
        lb_cookie_stickiness_policies := [],
        app_cookie_stickiness_policies := [] }
      (by simp [create_elb, init_world]) (by simp [create_elb, init_world]) ?_ ?_ ?_ ?_ hfail
    · intro _
      exact ⟨fun z hz => hz, fun _ z hz => hz⟩
    · intro sgs hsgs
      show sameSet (cfg.security_group_ids.getD []) sgs = true
      rw [hsgs]
      exact sameSet_refl sgs
    · refine ⟨?_, ?_, ?_⟩
      · intro d hd
        exact ⟨tuple_to_api_listener (listener_as_tuple d),
          List.mem_map.mpr ⟨d, hd, rfl⟩, api_round_trip _ (hssl d hd)⟩
      · intro _ e he
        obtain ⟨d, hd, hde⟩ := List.mem_map.mp he
        exact ⟨d, hd, by rw [← hde]; exact api_round_trip _ (hssl d hd)⟩
      · rw [UniquePorts, List.pairwise_map]
        exact hports
    · intro _
      exact ⟨fun s hs => hs, fun _ s hs => hs⟩
  | some e0 =>
    have h0f : (init_world (some e0)).failure = none := rfl
    have h0e : (init_world (some e0)).elb = some e0 := rfl
    obtain ⟨zs, h1e, h1z, h1f⟩ := set_zones_establishes cfg (init_world (some e0)) e0 h0f h0e
    obtain ⟨gs, h2e, h2g, h2f⟩ := set_security_groups_establishes cfg
      (set_zones cfg (init_world (some e0))) { e0 with availability_zones := zs } h1f h1e
    obtain ⟨ls, h3e, h3l, h3f⟩ := set_elb_listeners_step_establishes cfg
      (set_security_groups cfg (set_zones cfg (init_world (some e0))))
      { { e0 with availability_zones := zs } with security_groups := gs } h2f h2e
      hports (hlive e0 rfl) hssl
    obtain ⟨ss, h4e, h4s, h4f⟩ := set_subnets_establishes cfg
      (set_elb_listeners_step cfg
        (set_security_groups cfg (set_zones cfg (init_world (some e0)))))
      { { { e0 with availability_zones := zs } with security_groups := gs } with
        listeners := ls } h3f h3e
    exact tail _ _ h4f h4e h1z h2g h3l h4s hfail

/-- Running ensure_ok on a live resource that is already converged reports
changed false. -/
theorem ensure_ok_noop_of_converged (cfg : ElbConfig) (e1 : Elb)
    (hconv : converged cfg e1) :
    (ensure_ok cfg (init_world (some e1))).changed = false := by
  obtain ⟨hz, hg, hl, hs, hh, hst⟩ := hconv
  have h0f : (init_world (some e1)).failure = none := rfl
  have h0e : (init_world (some e1)).elb = some e1 := rfl
  have h0c : (init_world (some e1)).changed = false := rfl
  have hwa : set_subnets cfg (set_elb_listeners_step cfg
      (set_security_groups cfg (set_zones cfg (init_world (some e1))))) =
      init_world (some e1) := by
    rw [set_zones_noop cfg (init_world (some e1)) e1 h0f h0e hz,
        set_security_groups_noop cfg (init_world (some e1)) e1 h0f h0e hg,
        set_elb_listeners_noop cfg (init_world (some e1)) e1 h0f h0e hl,
        set_subnets_noop cfg (init_world (some e1)) e1 h0f h0e hs]
  have hwb : set_health_check cfg (init_world (some e1)) = init_world (some e1) :=
    set_health_check_noop cfg (init_world (some e1)) e1 h0f h0e hh
  rw [show (ensure_ok cfg (init_world (some e1))) = select_stickiness_policy cfg
      (if cfg.supports_cross_zone then
        set_cross_az_load_balancing cfg
          (if cfg.supports_connection_draining then
            set_connection_draining_timeout cfg (set_health_check cfg
              (set_subnets cfg (set_elb_listeners_step cfg (set_security_groups cfg (set_zones cfg (init_world (some e1)))))))
          else set_health_check cfg
              (set_subnets cfg (set_elb_listeners_step cfg (set_security_groups cfg (set_zones cfg (init_world (some e1)))))))
      else
        if cfg.supports_connection_draining then
          set_connection_draining_timeout cfg (set_health_check cfg
            (set_subnets cfg (set_elb_listeners_step cfg (set_security_groups cfg (set_zones cfg (init_world (some e1)))))))
        else set_health_check cfg
            (set_subnets cfg (set_elb_listeners_step cfg (set_security_groups cfg (set_zones cfg (init_world (some e1))))))) from rfl, hwa, hwb]
  cases hd1 : cfg.supports_connection_draining with
  | false =>
    cases hd2 : cfg.supports_cross_zone with
    | false =>
      simp only [hd1, hd2, Bool.false_eq_true, if_false, ite_false]
      exact select_stickiness_keeps_false cfg (init_world (some e1)) e1 h0c h0f h0e hst
    | true =>
      simp only [hd1, hd2, Bool.false_eq_true, if_false, ite_false, ite_true]
      obtain ⟨hc_elb, hc_fail, hc_ch⟩ := set_cross_az_establishes cfg
        (init_world (some e1)) e1 h0f h0e
      exact select_stickiness_keeps_false cfg _ _ (by rw [hc_ch, h0c]) hc_fail hc_elb hst
  | true =>
    obtain ⟨hc_elb, hc_fail, hc_ch⟩ := set_connection_draining_establishes cfg
      (init_world (some e1)) e1 h0f h0e
    cases hd2 : cfg.supports_cross_zone with
    | false =>
      simp only [hd1, hd2, Bool.false_eq_true, if_false, ite_false, ite_true]
      exact select_stickiness_keeps_false cfg _ _ (by rw [hc_ch, h0c]) hc_fail hc_elb hst
    | true =>
      simp only [hd1, hd2, ite_true]
      obtain ⟨hd_elb, hd_fail, hd_ch⟩ := set_cross_az_establishes cfg
        (set_connection_draining_timeout cfg (init_world (some e1)))
        { e1 with connection_draining_timeout := cfg.connection_draining_timeout }
        hc_fail hc_elb
      exact select_stickiness_keeps_false cfg _ _ (by rw [hd_ch, hc_ch, h0c])
        hd_fail hd_elb hst

/-- C2 (amended).  Re-invoking ensure_ok with the same desired
configuration against the live state left by a successful first invocation
reports changed false, for well-formed inputs: pairwise distinct desired
listener ports, the one-listener-per-port live invariant, and no empty
certificate ids. -/
theorem ensure_ok_idempotent_second_run (cfg : ElbConfig) (elb0 : Option Elb)
    (hports : cfg.listeners.Pairwise (fun a b => a.load_balancer_port ≠ b.load_balancer_port))
    (hlive : ∀ e, elb0 = some e → UniquePorts e.listeners)
    (hssl : ∀ l ∈ cfg.listeners, l.ssl_certificate_id ≠ some "")
    (hfail : (ensure_ok cfg (init_world elb0)).failure = none) :
    (ensure_ok cfg (init_world ((ensure_ok cfg (init_world elb0)).elb))).changed = false := by
  obtain ⟨e1, he1, hconv⟩ :=
    ensure_ok_establishes_converged cfg elb0 hports hlive hssl hfail
  rw [he1]
  exact ensure_ok_noop_of_converged cfg e1 hconv

/-- Closed witness for `ensure_ok_idempotent_second_run` on a configuration
that changes every synced aspect of the live fixture. -/
theorem ensure_ok_idempotent_second_run_witness :
    cfgTwoRuns.listeners.Pairwise
      (fun a b => a.load_balancer_port ≠ b.load_balancer_port) ∧
    (∀ e, (some elbTwoRuns : Option Elb) = some e → UniquePorts e.listeners) ∧
    (∀ l ∈ cfgTwoRuns.listeners, l.ssl_certificate_id ≠ some "") ∧
    (ensure_ok cfgTwoRuns (init_world (some elbTwoRuns))).failure = none ∧
    (ensure_ok cfgTwoRuns (init_world
      ((ensure_ok cfgTwoRuns (init_world (some elbTwoRuns))).elb))).changed = false :=
  ⟨by decide, fun e he => by cases he; unfold UniquePorts; decide, by decide, by decide,
   ensure_ok_idempotent_second_run cfgTwoRuns (some elbTwoRuns) (by decide)
     (fun e he => by cases he; unfold UniquePorts; decide) (by decide) (by decide)⟩

/-- C2 counterexample.  A first invocation that performs a delta (it issues
an enable-zones call) nevertheless reports changed false, because the
disabled loadbalancer stickiness step resets the flag when no live
lb-cookie policies exist — so the first invocation of the claimed
true-then-false pattern fails. -/
theorem ensure_ok_first_run_changed_counterexample :
    (ensure_ok cfgResetChanged (init_world (some elbResetChanged))).changed = false ∧
    ElbCall.enableZones ["us-east-1a"] ∈
      (ensure_ok cfgResetChanged (init_world (some elbResetChanged))).calls ∧
    (ensure_ok cfgResetChanged (init_world (some elbResetChanged))).failure = none := by
  refine ⟨?_, ?_, ?_⟩ <;> decide
